import Mathlib

/-!
Shallow embedding of the CyberSec-Game scene engine (`src/game/`), covering the
world movement/collision step, the interaction resolver, the dialogue scene,
the quiz (challenge) scene, and the save-file loader, together with theorems
settling the specification claims about them.

Conventions:
* `pygame.Rect` is embedded as a record of four integers (pygame rects store
  integer coordinates).
* Python floats are embedded as rationals (`ℚ`) where the code manipulates
  concrete float values (every IEEE float value is a rational), and as reals
  parameterised over the numeric type where the code divides by `math.sqrt(2)`.
* Python dicts used as string-keyed maps are embedded as association lists.
-/

namespace CyberSecGame

/-! ## Geometry: `pygame.Rect` and the helpers of `scenes.py` -/

/-- `pygame.Rect`: integer position and size. -/
structure Rect where
  x : Int
  y : Int
  w : Int
  h : Int
  deriving DecidableEq, Repr

/-- `Rect.centerx` (pygame computes `x + w // 2`; all widths used are nonnegative). -/
def Rect.centerx (r : Rect) : Int := r.x + r.w / 2

/-- `Rect.centery`. -/
def Rect.centery (r : Rect) : Int := r.y + r.h / 2

/-- `pygame.Rect.colliderect`: strict overlap on both axes; rects of zero
width or height never collide. -/
def collideB (a b : Rect) : Bool :=
  a.w != 0 && a.h != 0 && b.w != 0 && b.h != 0 &&
  a.x < b.x + b.w && b.x < a.x + a.w &&
  a.y < b.y + b.h && b.y < a.y + a.h

/-- Setting `rect.right = v` moves `x` so that `x + w = v`. -/
def Rect.setRight (r : Rect) (v : Int) : Rect := { r with x := v - r.w }

/-- Setting `rect.left = v`. -/
def Rect.setLeft (r : Rect) (v : Int) : Rect := { r with x := v }

/-- Setting `rect.bottom = v` moves `y` so that `y + h = v`. -/
def Rect.setBottom (r : Rect) (v : Int) : Rect := { r with y := v - r.h }

/-- Setting `rect.top = v`. -/
def Rect.setTop (r : Rect) (v : Int) : Rect := { r with y := v }

/-- `clamp` from `scenes.py` (lines 34-39), specialised to the integer values
it is applied to in `_move_and_collide`. -/
def pyClamp (v lo hi : Int) : Int :=
  if v < lo then lo else if v > hi then hi else v

/-- Python `int(x)` on a float/rational: truncation toward zero
(`Int.div` is T-division, and `q.den` is positive on normalized
rationals). -/
def pyInt (q : ℚ) : Int :=
  q.num.tdiv q.den

/-- `dist_sq` from `scenes.py` (lines 42-45), on integer centre coordinates. -/
def distSq (ax ay bx bY : Int) : Int :=
  (ax - bx) * (ax - bx) + (ay - bY) * (ay - bY)

/-! ## `WorldScene._move_and_collide` (scenes.py lines 495-515)

The world bounds rect is always `(0, 0, W, H)` (`world_bounds_rect`), so the
bounds are passed as the two integers `W`, `H`. -/

/-- The move-then-clamp part of `_move_and_collide`: add the truncated
displacement, then clamp each coordinate to `[0, bound - size]`. -/
def clampStep (W H : Int) (p : Rect) (dx dy : ℚ) : Rect :=
  let q : Rect := { p with x := p.x + pyInt dx, y := p.y + pyInt dy }
  { q with x := pyClamp q.x 0 (W - q.w), y := pyClamp q.y 0 (H - q.h) }

/-- The per-collider push-back of `_move_and_collide`: push the body back
along the axis just moved. -/
def pushBack (dx dy : ℚ) (p c : Rect) : Rect :=
  let q := if 0 < dx then p.setRight c.x
           else if dx < 0 then p.setLeft (c.x + c.w) else p
  if 0 < dy then q.setBottom c.y
  else if dy < 0 then q.setTop (c.y + c.h) else q

/-- The `for c in self._colliders()` loop of `_move_and_collide`. -/
def collideLoop (dx dy : ℚ) (p : Rect) : List Rect → Rect
  | [] => p
  | c :: cs => collideLoop dx dy (if collideB p c then pushBack dx dy p c else p) cs

/-- `WorldScene._move_and_collide(dx, dy)` (scenes.py lines 495-515). -/
def moveAndCollide (W H : Int) (colliders : List Rect) (p : Rect) (dx dy : ℚ) : Rect :=
  if dx = 0 ∧ dy = 0 then p
  else collideLoop dx dy (clampStep W H p dx dy) colliders

/-- The player rect lies fully within the world bounds rect `(0, 0, W, H)`. -/
def inBoundsB (W H : Int) (p : Rect) : Bool :=
  0 ≤ p.x && p.x + p.w ≤ W && 0 ≤ p.y && p.y + p.h ≤ H

/-! ## Movement intent (`WorldScene.update`, scenes.py lines 449-469) -/

/-- Net horizontal intent from the left/right flags (lines 452-457). -/
def intentX (left right : Bool) : Int :=
  (if left then -1 else 0) + (if right then 1 else 0)

/-- Net vertical intent from the up/down flags (lines 458-461). -/
def intentY (up down : Bool) : Int :=
  (if up then -1 else 0) + (if down then 1 else 0)

/-- The displacement `(dx, dy)` computed by `WorldScene.update`
(lines 452-469), parameterised over the numeric type: `invRoot2` stands for
the value `1.0 / math.sqrt(2.0)`, `speed` for `PLAYER_SPEED`.  If both axes
are active the direction is scaled by `invRoot2` before multiplying by
`speed * dt`. -/
def frameDisplacement (R : Type) [CommRing R] [DecidableEq R]
    (invRoot2 speed dt : R) (up down left right : Bool) : R × R :=
  let vx : R := (intentX left right : Int)
  let vy : R := (intentY up down : Int)
  let p : R × R := if vx ≠ 0 ∧ vy ≠ 0 then (vx * invRoot2, vy * invRoot2) else (vx, vy)
  (p.1 * speed * dt, p.2 * speed * dt)

/-! ## Interactables and the proximity resolver (scenes.py lines 517-589)

NPC/portal/book entries carry the string-keyed fields the resolver and
`handle_input` read.  Optional fields model `dict.get` returning `None`. -/

/-- An NPC entry (`_npcs`). -/
structure Npc where
  npc_id : String
  dialogue : Option String
  rect : Rect
  deriving DecidableEq, Repr

/-- A portal (transition zone) entry (`_portals`). -/
structure Portal where
  rect : Rect
  target_map : String
  target_x : Option ℚ
  target_y : Option ℚ
  target_zoom : Option ℚ
  deriving DecidableEq, Repr

/-- A book (readable) entry (`_books`). -/
structure Book where
  rect : Rect
  title : String
  text : String
  deriving DecidableEq, Repr

/-- `WorldScene._closest_npc` (lines 517-528): nearest NPC by squared
centre-to-centre distance, within `maxDist` squared; later entries win ties. -/
def closestNpcAux (px py : Int) (best : Option Npc) (bestD : Int) :
    List Npc → Option Npc
  | [] => best
  | n :: rest =>
    let d := distSq px py n.rect.centerx n.rect.centery
    if d ≤ bestD then closestNpcAux px py (some n) d rest
    else closestNpcAux px py best bestD rest

/-- `WorldScene._closest_npc` with its 48px radius call-site default folded in
at `nearestInteractable`; `maxDist` is passed squared as `bestD` start. -/
def closestNpc (player : Rect) (maxDist : Int) (npcs : List Npc) : Option Npc :=
  closestNpcAux player.centerx player.centery none (maxDist * maxDist) npcs

/-- `WorldScene._closest_portal` (lines 530-543): a portal overlapping the
player is returned immediately; otherwise nearest by squared distance within
the radius. -/
def closestPortalAux (player : Rect) (best : Option Portal) (bestD : Int) :
    List Portal → Option Portal
  | [] => best
  | p :: rest =>
    if collideB player p.rect then some p
    else
      let d := distSq player.centerx player.centery p.rect.centerx p.rect.centery
      if d ≤ bestD then closestPortalAux player (some p) d rest
      else closestPortalAux player best bestD rest

/-- `WorldScene._closest_portal`. -/
def closestPortal (player : Rect) (maxDist : Int) (portals : List Portal) : Option Portal :=
  closestPortalAux player none (maxDist * maxDist) portals

/-- `WorldScene._closest_book` (lines 545-558), same shape as the portal
search. -/
def closestBookAux (player : Rect) (best : Option Book) (bestD : Int) :
    List Book → Option Book
  | [] => best
  | b :: rest =>
    if collideB player b.rect then some b
    else
      let d := distSq player.centerx player.centery b.rect.centerx b.rect.centery
      if d ≤ bestD then closestBookAux player (some b) d rest
      else closestBookAux player best bestD rest

/-- `WorldScene._closest_book`. -/
def closestBook (player : Rect) (maxDist : Int) (books : List Book) : Option Book :=
  closestBookAux player none (maxDist * maxDist) books

/-- The discriminated result of `_nearest_interactable`. -/
inductive Interactable where
  | npc (n : Npc)
  | portal (p : Portal)
  | book (b : Book)
  deriving DecidableEq, Repr

/-- The rectangle of an interactable. -/
def Interactable.rect : Interactable → Rect
  | .npc n => n.rect
  | .portal p => p.rect
  | .book b => b.rect

/-- The effective distance `_nearest_interactable` associates with a
candidate: portals and books overlapping the player count as 0; NPCs always
use the centre-to-centre squared distance. -/
def effDist (player : Rect) : Interactable → Int
  | .npc n => distSq player.centerx player.centery n.rect.centerx n.rect.centery
  | .portal p =>
    if collideB player p.rect then 0
    else distSq player.centerx player.centery p.rect.centerx p.rect.centery
  | .book b =>
    if collideB player b.rect then 0
    else distSq player.centerx player.centery b.rect.centerx b.rect.centery

/-- `WorldScene._nearest_interactable` (lines 560-589): NPCs first (48px),
then portals (70px), then books (60px); a later kind replaces the current
best only when its effective distance is strictly smaller. -/
def nearestInteractable (player : Rect) (npcs : List Npc) (portals : List Portal)
    (books : List Book) : Option Interactable :=
  let s0 : Option Interactable × Int := (none, 999999999)
  let s1 := match closestNpc player 48 npcs with
    | none => s0
    | some n => (some (.npc n), effDist player (.npc n))
  let s2 := match closestPortal player 70 portals with
    | none => s1
    | some p =>
      let d := effDist player (.portal p)
      if d < s1.2 then (some (.portal p), d) else s1
  let s3 := match closestBook player 60 books with
    | none => s2
    | some b =>
      let d := effDist player (.book b)
      if d < s2.2 then (some (.book b), d) else s2
  s3.1

/-! ## `WorldScene.handle_input` (scenes.py lines 386-447) and spawn
(lines 310-316) -/

/-- The per-frame edge-triggered input snapshot (`input.py`), restricted to
the fields the modelled handlers read. -/
structure InputFrame where
  up : Bool := false
  down : Bool := false
  left : Bool := false
  right : Bool := false
  interact_pressed : Bool := false
  confirm_pressed : Bool := false
  cancel_pressed : Bool := false
  deriving DecidableEq, Repr

/-- Truthiness of an optional string (`None` and `""` are falsy in Python). -/
def truthyS (o : Option String) : Bool :=
  !(o.getD "" == "")

/-- The transition requested by `WorldScene.handle_input`.  `world` carries
the raw (pre-truncation) spawn coordinates handed to the `WorldScene`
constructor. -/
inductive WorldOutcome where
  | stay
  | menu
  | dialogue (dialoguePath : String) (npc_id : String)
  | world (map_id : String) (tx ty : ℚ) (zoom : Option ℚ)
  | info (title : String) (text : String)
  deriving DecidableEq, Repr

/-- The parts of a `WorldScene` that `handle_input` reads. -/
structure WorldState where
  map_id : String
  player : Rect
  npcs : List Npc
  portals : List Portal
  books : List Book
  deriving Repr

/-- The default dialogue path used when an NPC has no `dialogue` field
(line 407). -/
def defaultDialoguePath : String := "data/dialogues/npc_aya.json"

/-- `WorldScene.handle_input` (lines 386-447).  Cancel exits to the menu;
otherwise the nearest interactable is resolved and, on the interact key,
dispatched on its kind.  A portal fires only when its `target_map` is
non-empty; absent target coordinates default to the player's current
position. -/
def worldHandleInput (st : InputFrame) (w : WorldState) : WorldOutcome :=
  if st.cancel_pressed then .menu
  else
    match nearestInteractable w.player w.npcs w.portals w.books with
    | none => .stay
    | some (.npc n) =>
      if st.interact_pressed then
        .dialogue (if truthyS n.dialogue then n.dialogue.getD "" else defaultDialoguePath) n.npc_id
      else .stay
    | some (.portal p) =>
      if st.interact_pressed then
        let tx := p.target_x.getD (w.player.x : ℚ)
        let ty := p.target_y.getD (w.player.y : ℚ)
        if p.target_map ≠ "" then .world p.target_map tx ty p.target_zoom else .stay
      else .stay
    | some (.book b) =>
      if st.interact_pressed then .info b.title b.text else .stay

/-- The player rect built by the `WorldScene` constructor from an explicit
spawn (line 316): `pygame.Rect(int(px), int(py), PLAYER_W, PLAYER_H)`. -/
def spawnPlayerRect (tx ty : ℚ) (pw ph : Int) : Rect :=
  { x := pyInt tx, y := pyInt ty, w := pw, h := ph }

/-! ## Association-list maps (Python dicts keyed by strings) -/

/-- `m.get(k, 0)` on a string→int dict. -/
def lookupD (m : List (String × Int)) (k : String) : Int :=
  match m with
  | [] => 0
  | (k', v) :: rest => if k' = k then v else lookupD rest k

/-- `m[k] = v` on a string→int dict: replace the first binding or append. -/
def setKey (m : List (String × Int)) (k : String) (v : Int) : List (String × Int) :=
  match m with
  | [] => [(k, v)]
  | (k', v') :: rest => if k' = k then (k, v) :: rest else (k', v') :: setKey rest k v

/-! ## `DialogueScene` (scenes.py lines 689-771) -/

/-- One entry of a node's `choices` list. -/
structure DialogueChoice where
  label : String := ""
  trust_delta : Int := 0
  next : Option String := none
  deriving DecidableEq, Repr, Inhabited

/-- A node's `action` dict. -/
structure DialogueAction where
  type : String := ""
  challenge_set : String := ""
  deriving DecidableEq, Repr, Inhabited

/-- A dialogue node.  `extra` records whether the underlying dict has any
key beyond the modelled ones (it only matters for the `if not node:`
truthiness test; a node dict with any key is truthy). -/
structure DialogueNode where
  speaker : Option String := none
  text : Option String := none
  portrait : Option String := none
  choices : Option (List DialogueChoice) := none
  next : Option String := none
  action : Option DialogueAction := none
  extra : Bool := false
  deriving DecidableEq, Repr, Inhabited

/-- Python truthiness of `self.nodes.get(self.node_id, {})`: the default `{}`
is falsy, and a present node dict is falsy exactly when it has no keys. -/
def nodeFalsy : Option DialogueNode → Bool
  | none => true
  | some n =>
    n.speaker.isNone && n.text.isNone && n.portrait.isNone &&
    n.choices.isNone && n.next.isNone && n.action.isNone && !n.extra

/-- Keydown events seen by the handlers (`K_UP` / `K_DOWN` / anything else). -/
inductive KeyEv where
  | up
  | down
  | other
  deriving DecidableEq, Repr

/-- The net selection delta of a list of keydown events (`-1` per up,
`+1` per down, applied before clamping). -/
def moveDelta (events : List KeyEv) : Int :=
  events.foldl (fun acc ev => match ev with
    | .up => acc - 1
    | .down => acc + 1
    | .other => acc) 0

/-- `nodes.get(node_id)` on the node graph. -/
def lookupNode (nodes : List (String × DialogueNode)) (k : String) : Option DialogueNode :=
  match nodes with
  | [] => none
  | (k', n) :: rest => if k' = k then some n else lookupNode rest k

/-- The state of a `DialogueScene` that `handle_input` reads and writes.
`α` is the type of the retained return scene; `trust` is the save
document's trust map. -/
structure DialogueState (α : Type) where
  returnScene : α
  npc_id : String
  nodes : List (String × DialogueNode)
  node_id : String
  selected_choice : Int
  trust : List (String × Int)

/-- The transition requested by `DialogueScene.handle_input`.  `exit` carries
whether `save_game` ran on that path; `challenge` records the scene passed as
the quiz's return scene (line 765 passes `self.return_scene`, and line 764
saves first). -/
inductive DialogueOutcome (α : Type) where
  | stay
  | exit (dest : α) (saved : Bool)
  | challenge (returnTo : α) (set_id : String)

/-- The tail of `DialogueScene.handle_input` (lines 760-771): the
`start_challenge` action check, then the `if not node:` graceful-termination
check. -/
def dialogueTail {α : Type} (s : DialogueState α) (node? : Option DialogueNode) :
    DialogueState α × DialogueOutcome α :=
  let node := node?.getD {}
  match node.action with
  | some a =>
    if a.type = "start_challenge" ∧ a.challenge_set ≠ "" then
      (s, .challenge s.returnScene a.challenge_set)
    else if nodeFalsy node? then (s, .exit s.returnScene true)
    else (s, .stay)
  | none =>
    if nodeFalsy node? then (s, .exit s.returnScene true)
    else (s, .stay)

/-- The selection index after the up/down events and the two sequential
clamps of lines 726-736. -/
def clampedSelection (sel0 : Int) (events : List KeyEv) (len : Nat) : Int :=
  let sel := sel0 + moveDelta events
  let sel := if sel < 0 then 0 else sel
  if sel ≥ (len : Int) then (len : Int) - 1 else sel

/-- `DialogueScene.handle_input` (lines 717-771).  Cancel always persists and
exits.  A node with a non-empty `choices` list processes selection movement,
and on confirm applies the chosen option's `trust_delta` to
`trust[npc_id]` (missing entry counts as 0) and follows a truthy `next`.
A choice-less node follows its own truthy `next` on confirm.  Any path that
did not move to another node falls through to `dialogueTail`. -/
def dialogueHandleInput {α : Type} (st : InputFrame) (events : List KeyEv)
    (s : DialogueState α) : DialogueState α × DialogueOutcome α :=
  if st.cancel_pressed then (s, .exit s.returnScene true)
  else
    let node? := lookupNode s.nodes s.node_id
    let node := node?.getD {}
    match node.choices with
    | some cs =>
      if cs ≠ [] then
        let sel := clampedSelection s.selected_choice events cs.length
        if st.confirm_pressed then
          let c := cs.getD sel.toNat default
          let trust1 := setKey s.trust s.npc_id (lookupD s.trust s.npc_id + c.trust_delta)
          let s1 := { s with trust := trust1, selected_choice := sel }
          if truthyS c.next then
            ({ s1 with node_id := c.next.getD "", selected_choice := 0 }, .stay)
          else dialogueTail s1 node?
        else dialogueTail { s with selected_choice := sel } node?
      else
        if st.confirm_pressed ∧ truthyS node.next then
          ({ s with node_id := node.next.getD "" }, .stay)
        else dialogueTail s node?
    | none =>
      if st.confirm_pressed ∧ truthyS node.next then
        ({ s with node_id := node.next.getD "" }, .stay)
      else dialogueTail s node?

/-! ## `ChallengeScene` (scenes.py lines 864-944) -/

/-- One quiz question, with the parse-time defaults of the accessors
(`points` defaults to 100, `correct_index` to 0) already applied. -/
structure Question where
  prompt : String := ""
  choices : List String := []
  correct_index : Int := 0
  points : Int := 100
  explanation : String := ""
  deriving DecidableEq, Repr, Inhabited

/-- `self.max_points` as computed by the constructor loop
(lines 886-888). -/
def sumPoints (qs : List Question) : Int :=
  qs.foldl (fun acc q => acc + q.points) 0

/-- The idempotent completed-set recording of lines 912-914:
`if self.challenge_set_id not in comp: comp.append(...)`. -/
def markCompleted (comp : List String) (id : String) : List String :=
  if id ∈ comp then comp else comp ++ [id]

/-- The state of a `ChallengeScene` that `handle_input` reads and writes.
`scores` and `completed` are the corresponding parts of the save document. -/
structure ChallengeState (α : Type) where
  returnScene : α
  set_id : String
  title : String
  category : String
  questions : List Question
  qi : Nat
  selected : Int
  showing_feedback : Bool
  last_correct : Bool
  last_expl : String
  points_earned : Int
  max_points : Int
  scores : List (String × Int)
  completed : List String

/-- A fresh `ChallengeScene` (constructor, lines 865-888): all progress
counters zeroed and `max_points` summed once from the question list. -/
def mkChallengeState {α : Type} (ret : α) (set_id title category : String)
    (qs : List Question) (scores : List (String × Int)) (completed : List String) :
    ChallengeState α :=
  { returnScene := ret, set_id := set_id, title := title, category := category,
    questions := qs, qi := 0, selected := 0, showing_feedback := false,
    last_correct := false, last_expl := "", points_earned := 0,
    max_points := sumPoints qs, scores := scores, completed := completed }

/-- The transition requested by `ChallengeScene.handle_input`. -/
inductive ChallengeOutcome (α : Type) where
  | stay
  | exit (dest : α)
  | results (dest : α) (title : String) (points maxPoints : Int)

/-- `ChallengeScene.handle_input` (lines 895-944).  Cancel persists and
returns; an empty question list transitions straight to Results; in feedback
only confirm advances (recording the set as completed after the last
question); otherwise selection moves/clamps and confirm grades the current
question, crediting its points to the running total and to the save's
`total` and category buckets. -/
def challengeHandleInput {α : Type} (st : InputFrame) (events : List KeyEv)
    (s : ChallengeState α) : ChallengeState α × ChallengeOutcome α :=
  if st.cancel_pressed then (s, .exit s.returnScene)
  else if s.questions = [] then
    (s, .results s.returnScene s.title s.points_earned s.max_points)
  else
    let q := s.questions.getD s.qi default
    if s.showing_feedback then
      if st.confirm_pressed then
        let s1 := { s with showing_feedback := false, selected := 0, qi := s.qi + 1 }
        if s1.qi ≥ s.questions.length then
          let s2 := { s1 with completed := markCompleted s1.completed s1.set_id }
          (s2, .results s2.returnScene s2.title s2.points_earned s2.max_points)
        else (s1, .stay)
      else (s, .stay)
    else
      let sel := clampedSelection s.selected events q.choices.length
      if st.confirm_pressed then
        let correct : Bool := sel = q.correct_index
        let s1 := { s with selected := sel, last_correct := correct,
                           last_expl := q.explanation }
        if correct then
          let pts := q.points
          let sc := setKey s1.scores "total" (lookupD s1.scores "total" + pts)
          let sc := setKey sc s1.category (lookupD sc s1.category + pts)
          ({ s1 with points_earned := s1.points_earned + pts, scores := sc,
                     showing_feedback := true }, .stay)
        else ({ s1 with showing_feedback := true }, .stay)
      else ({ s with selected := sel }, .stay)

/-- Driving a `ChallengeScene` through a list of frames; stops at the first
frame whose result requests a transition (the scene machine would then swap
scenes). -/
def runChallenge {α : Type} (s : ChallengeState α) :
    List (InputFrame × List KeyEv) → ChallengeState α × Option (ChallengeOutcome α)
  | [] => (s, none)
  | (st, evs) :: rest =>
    match challengeHandleInput st evs s with
    | (s', .stay) => runChallenge s' rest
    | (s', out) => (s', some out)

/-- A confirm frame that first moves the selection down `k` times. -/
def answerFrame (k : Nat) : InputFrame × List KeyEv :=
  ({ confirm_pressed := true }, List.replicate k .down)

/-- A bare confirm frame (dismisses feedback). -/
def confirmFrame : InputFrame × List KeyEv :=
  ({ confirm_pressed := true }, [])

/-- The frame sequence that answers each question with the given selection
index and confirms each feedback screen. -/
def quizFrames (sels : List Nat) : List (InputFrame × List KeyEv) :=
  sels.flatMap (fun k => [answerFrame k, confirmFrame])

/-- The points awarded by a run: the sum of `points` over the questions whose
chosen index equals `correct_index`. -/
def zscore : List Question → List Nat → Int
  | q :: qs, k :: ks => (if (k : Int) = q.correct_index then q.points else 0) + zscore qs ks
  | _, _ => 0

/-! ## `save_system.py` -/

/-- JSON values (`json.load` output). -/
inductive Json where
  | null
  | bool (b : Bool)
  | num (q : ℚ)
  | str (s : String)
  | arr (xs : List Json)
  | obj (kvs : List (String × Json))

/-- Lookup in a JSON object's key-value list. -/
def lookupJ (m : List (String × Json)) (k : String) : Option Json :=
  match m with
  | [] => none
  | (k', v) :: rest => if k' = k then some v else lookupJ rest k

/-- `m[k] = v` on a JSON object: replace the first binding or append. -/
def setKeyJ (m : List (String × Json)) (k : String) (v : Json) : List (String × Json) :=
  match m with
  | [] => [(k, v)]
  | (k', v') :: rest => if k' = k then (k, v) :: rest else (k', v') :: setKeyJ rest k v

/-- `default_save()` (save_system.py lines 11-26) as a JSON object body. -/
def defaultSaveJson : List (String × Json) :=
  [("world", .obj [("map", .str "city")]),
   ("player", .obj [("x", .num 200), ("y", .num 200)]),
   ("trust", .obj []),
   ("scores", .obj [("total", .num 0), ("phishing", .num 0), ("password", .num 0),
                    ("links", .num 0), ("mfa", .num 0)]),
   ("completed", .obj [("challenges", .arr [])])]

/-- Python `dict.update(data)` on the parsed JSON value.  A JSON object
merges key by key.  A non-object raises: a number/bool/null is not iterable
(`TypeError`), and strings or arrays whose elements are not key/value pairs
fail too (non-string keys, representable in Python, are also modelled as
errors; no save-shaped document uses them). -/
def pyDictUpdate (base : List (String × Json)) : Json → Except String (List (String × Json))
  | .obj kvs => .ok (kvs.foldl (fun b kv => setKeyJ b kv.1 kv.2) base)
  | .arr xs =>
    xs.foldlM (fun b x =>
      match x with
      | .arr [.str k, v] => .ok (setKeyJ b k v)
      | _ => .error "TypeError") base
  | .str s => if s.isEmpty then .ok base else .error "ValueError"
  | _ => .error "TypeError"

/-- The "light normalization" block of `load_save` (lines 40-62), applied
after the shallow merge. -/
def normalizeSave (base0 : List (String × Json)) : List (String × Json) :=
  let base1 := match lookupJ base0 "world" with
    | some (.obj w) =>
      if (lookupJ w "map").isSome then base0
      else setKeyJ base0 "world" (.obj (setKeyJ w "map" (.str "city")))
    | _ => setKeyJ base0 "world" (.obj [("map", .str "city")])
  let base2 := match lookupJ base1 "player" with
    | some (.obj _) => base1
    | _ => setKeyJ base1 "player" (.obj [("x", .num 200), ("y", .num 200)])
  let base3 := match lookupJ base2 "trust" with
    | some (.obj _) => base2
    | _ => setKeyJ base2 "trust" (.obj [])
  let base4 := match lookupJ base3 "scores" with
    | some (.obj _) => base3
    | _ => setKeyJ base3 "scores" (.obj [("total", .num 0), ("phishing", .num 0),
        ("password", .num 0), ("links", .num 0), ("mfa", .num 0)])
  let base5 := match lookupJ base4 "completed" with
    | some (.obj _) => base4
    | _ => setKeyJ base4 "completed" (.obj [("challenges", .arr [])])
  match lookupJ base5 "completed" with
  | some (.obj c) =>
    match lookupJ c "challenges" with
    | some (.arr _) => base5
    | _ => setKeyJ base5 "completed" (.obj (setKeyJ c "challenges" (.arr [])))
  | _ => base5

/-- The three ways a call to `load_save` can find the save file. -/
inductive LoadInput where
  | absent
  | unparsable
  | parsed (j : Json)

/-- `load_save()` (save_system.py lines 29-64).  A missing file or a parse
error inside the `try` falls back to the defaults; a parsed value is merged
over the defaults with `dict.update` — which is outside the `try` and raises
on non-object values — and then normalized. -/
def loadSave : LoadInput → Except String (List (String × Json))
  | .absent => .ok defaultSaveJson
  | .unparsable => .ok defaultSaveJson
  | .parsed j =>
    match pyDictUpdate defaultSaveJson j with
    | .ok base => .ok (normalizeSave base)
    | .error e => .error e

/-! ## Shared lemmas about the association-list maps -/

theorem lookupD_setKey_self (m : List (String × Int)) (k : String) (v : Int) :
    lookupD (setKey m k v) k = v := by
  induction m with
  | nil => simp [setKey, lookupD]
  | cons kv rest ih =>
    by_cases h : kv.1 = k <;> simp [setKey, lookupD, h, ih]

theorem lookupD_setKey_ne (m : List (String × Int)) (k k' : String) (v : Int)
    (h : k' ≠ k) : lookupD (setKey m k v) k' = lookupD m k' := by
  have h2 : ¬ (k = k') := fun e => h e.symm
  induction m with
  | nil => simp [setKey, lookupD, h2]
  | cons kv rest ih =>
    by_cases hk : kv.1 = k
    · have hkk : ¬ (kv.1 = k') := by rw [hk]; exact h2
      simp [setKey, lookupD, hk, h2, hkk]
    · simp [setKey, lookupD, hk, ih]

/-! ## Claim C5 (save loading never fatal) -/

/-- **C5** (status: code_bug).  The claim says `load_save` returns a save
document without raising for a missing file, unparsable JSON, *or any JSON
value*.  The first two hold (the `try` falls back to the defaults), but a
file holding the valid JSON value `5` parses fine and then raises
`TypeError` at `base.update(data)` (save_system.py line 42), which sits
outside the `try`. -/
theorem loadSave_raises_on_number :
    loadSave (.parsed (.num 5)) = .error "TypeError" ∧
    loadSave .absent = .ok defaultSaveJson ∧
    loadSave .unparsable = .ok defaultSaveJson :=
  ⟨rfl, rfl, rfl⟩

/-! ## Claim C6 (idempotent completion recording) -/

/-- **C6 counterexample**.  The claim quantifies over every save document,
but a document whose `completed.challenges` list already holds duplicate
entries keeps them: finishing the set again does not reduce the two `"a"`
entries to one. -/
theorem markCompleted_duplicates_kept :
    (markCompleted ["a", "a"] "a").count "a" ≠ 1 := by decide

/-- Recording a completed set `n` times in a row. -/
def iterCompleted : Nat → List String → String → List String
  | 0, comp, _ => comp
  | n + 1, comp, id => iterCompleted n (markCompleted comp id) id

theorem markCompleted_mem (comp : List String) (id : String) :
    id ∈ markCompleted comp id := by
  by_cases h : id ∈ comp <;> simp [markCompleted, h]

theorem markCompleted_of_mem {comp : List String} {id : String} (h : id ∈ comp) :
    markCompleted comp id = comp := by
  simp [markCompleted, h]

theorem markCompleted_count (comp : List String) (id : String) :
    (markCompleted comp id).count id = if id ∈ comp then comp.count id else comp.count id + 1 := by
  by_cases h : id ∈ comp <;> simp [markCompleted, h, List.count_append]

/-- **C6** (status: corrected).  Amended claim: starting from a save document
whose `completed.challenges` list holds the id at most once, finishing the
set any positive number of times leaves exactly one entry with that id; and
in general finishing a set whose id is already present changes nothing
(recording is idempotent), so no duplicate is ever added. -/
theorem markCompleted_idempotent (comp : List String) (id : String) (n : Nat)
    (h : comp.count id ≤ 1) :
    (iterCompleted (n + 1) comp id).count id = 1 ∧
    markCompleted (markCompleted comp id) id = markCompleted comp id := by
  constructor
  · have h1 : (markCompleted comp id).count id = 1 := by
      rw [markCompleted_count]
      by_cases hm : id ∈ comp
      · have := List.count_pos_iff.mpr hm
        simp only [hm, if_true]
        omega
      · have := List.count_eq_zero_of_not_mem hm
        simp only [hm, if_false]
        omega
    induction n generalizing comp with
    | zero => simpa [iterCompleted] using h1
    | succ m ih =>
      have hmem : id ∈ markCompleted comp id := markCompleted_mem comp id
      have : iterCompleted (m + 1 + 1) comp id = iterCompleted (m + 1) (markCompleted comp id) id := rfl
      rw [this]
      exact ih (markCompleted comp id) (by omega) (by rwa [markCompleted_of_mem hmem])
  · exact markCompleted_of_mem (markCompleted_mem comp id)

/-- Witness for C6: one prior entry, two further completions, still exactly
one entry. -/
theorem markCompleted_idempotent_witness :
    (iterCompleted 2 ["x"] "x").count "x" = 1 ∧
    markCompleted (markCompleted ["x"] "x") "x" = markCompleted ["x"] "x" :=
  markCompleted_idempotent ["x"] "x" 1 (by decide)

/-! ## Claim C9 (missing dialogue node terminates gracefully) -/

/-- **C9** (status: confirmed).  If the current node id has no entry in the
node graph, `handle_input` persists the save (`save_game`, line 768) and
returns to the prior scene, whatever the input was. -/
theorem dialogue_missing_node_exits {α : Type} (st : InputFrame) (events : List KeyEv)
    (s : DialogueState α) (h : lookupNode s.nodes s.node_id = none) :
    dialogueHandleInput st events s = (s, .exit s.returnScene true) := by
  by_cases hc : st.cancel_pressed <;>
    simp [dialogueHandleInput, hc, h, dialogueTail, truthyS, nodeFalsy]

/-- Witness for C9 at a concrete scene whose node graph lacks the current
node id. -/
theorem dialogue_missing_node_exits_witness :
    dialogueHandleInput { confirm_pressed := true } []
      { returnScene := (0 : Nat), npc_id := "aya",
        nodes := [("intro", { text := some "hi" })], node_id := "gone",
        selected_choice := 0, trust := [] } =
      ({ returnScene := (0 : Nat), npc_id := "aya",
         nodes := [("intro", { text := some "hi" })], node_id := "gone",
         selected_choice := 0, trust := [] }, .exit 0 true) :=
  dialogue_missing_node_exits _ _ _ rfl

/-! ## Claim C10 (start_challenge action fires without confirm) -/

/-- A dialogue node carrying both a direct `next` id and a
`start_challenge` action. -/
def nodeNextAndAction : DialogueNode :=
  { next := some "B",
    action := some { type := "start_challenge", challenge_set := "quiz1" } }

/-- A dialogue scene sitting on `nodeNextAndAction`. -/
def stateOnNextAndAction : DialogueState Nat :=
  { returnScene := 0, npc_id := "aya", nodes := [("n", nodeNextAndAction)],
    node_id := "n", selected_choice := 0, trust := [] }

/-- **C10 counterexample**.  The claim exempts only a confirm that committed
a *choice* carrying a next-node id, but on a choice-less node whose dict has
both `next` and a `start_challenge` action, a confirm follows `next`
(lines 753-757) and returns before the action check: the frame produces no
challenge transition, contradicting the claim for this cancel-free input. -/
theorem dialogue_action_skipped_on_next_cex :
    dialogueHandleInput { confirm_pressed := true } [] stateOnNextAndAction =
      ({ stateOnNextAndAction with node_id := "B" }, .stay) := by
  simp [dialogueHandleInput, stateOnNextAndAction, nodeNextAndAction, lookupNode, truthyS]

/-- Whether this frame's confirm commits a move to another node: on a node
with a non-empty `choices` list, the chosen option's `next` must be truthy;
otherwise the node's own `next` must be truthy (lines 744-748 and
753-757). -/
def confirmMovesNode {α : Type} (st : InputFrame) (events : List KeyEv)
    (s : DialogueState α) (node : DialogueNode) : Bool :=
  st.confirm_pressed &&
    (match node.choices with
     | some cs =>
       if cs ≠ [] then
         truthyS ((cs.getD (clampedSelection s.selected_choice events cs.length).toNat
           default).next)
       else truthyS node.next
     | none => truthyS node.next)

/-- **C10** (status: corrected).  Amended claim: whenever the current node
declares a `start_challenge` action with a non-empty `challenge_set` id,
`handle_input` transitions to the quiz scene on the same frame for any input
with cancel not pressed — unless that frame's confirm moved to another node,
either by committing a choice carrying a next-node id or by following a
choice-less node's own `next` id — passing the dialogue's return scene, not
the dialogue itself, as the quiz's return scene. -/
theorem dialogue_action_fires {α : Type} (st : InputFrame) (events : List KeyEv)
    (s : DialogueState α) (node : DialogueNode) (a : DialogueAction)
    (hn : lookupNode s.nodes s.node_id = some node)
    (ha : node.action = some a)
    (hty : a.type = "start_challenge")
    (hcs : a.challenge_set ≠ "")
    (hcan : st.cancel_pressed = false)
    (hmv : confirmMovesNode st events s node = false) :
    (dialogueHandleInput st events s).2 = .challenge s.returnScene a.challenge_set := by
  have hfalsy : nodeFalsy (some node) = false := by
    simp [nodeFalsy, ha]
  have htail : ∀ s' : DialogueState α,
      dialogueTail s' (some node) = (s', .challenge s'.returnScene a.challenge_set) := by
    intro s'
    simp [dialogueTail, ha, hty, hcs]
  simp only [dialogueHandleInput, hn, hcan, Bool.false_eq_true, if_false,
    Option.getD_some]
  match hch : node.choices with
  | some cs =>
    by_cases hne : cs = []
    · subst hne
      simp only [confirmMovesNode, hch, Bool.and_eq_false_iff] at hmv
      rcases hmv with hmv | hmv
      · simp [hmv, htail]
      · simp at hmv
        simp [hmv, htail]
    · by_cases hcf : st.confirm_pressed
      · simp only [confirmMovesNode, hch, if_pos hne, Bool.and_eq_false_iff] at hmv
        rcases hmv with hmv | hmv
        · rw [hcf] at hmv; simp at hmv
        · simp only [List.getD_eq_getElem?_getD] at hmv
          simp [hne, hcf, hmv, htail]
      · simp [hne, hcf, htail]
  | none =>
    simp only [confirmMovesNode, hch, Bool.and_eq_false_iff] at hmv
    rcases hmv with hmv | hmv
    · simp [hmv, htail]
    · simp [hmv, htail]

/-- A dialogue node with only a `start_challenge` action. -/
def nodeActionOnly : DialogueNode :=
  { action := some { type := "start_challenge", challenge_set := "quiz2" } }

/-- A dialogue scene sitting on `nodeActionOnly`. -/
def stateOnActionOnly : DialogueState Nat :=
  { returnScene := 3, npc_id := "mika", nodes := [("m", nodeActionOnly)],
    node_id := "m", selected_choice := 0, trust := [] }

/-- Witness for C10: no confirm needed, the action fires at once and hands
the dialogue's return scene to the quiz. -/
theorem dialogue_action_fires_witness :
    (dialogueHandleInput {} [] stateOnActionOnly).2 =
      .challenge stateOnActionOnly.returnScene "quiz2" :=
  dialogue_action_fires {} [] stateOnActionOnly nodeActionOnly
    { type := "start_challenge", challenge_set := "quiz2" }
    rfl rfl rfl (by decide) rfl (by decide)

/-! ## Claim C7 (diagonal movement is normalized)

The float arithmetic of lines 463-469 is interpreted over `ℝ`, with
`1.0 / math.sqrt(2.0)` read as the exact `(Real.sqrt 2)⁻¹`. -/

theorem invRoot2_sq : ((Real.sqrt 2)⁻¹ : ℝ) ^ 2 = 2⁻¹ := by
  rw [inv_pow, Real.sq_sqrt (by norm_num : (0:ℝ) ≤ 2)]

/-- **C7 counterexample**.  A frame with all four movement flags active has
both a horizontal and a vertical flag active, yet the two axes cancel: the
displacement is `(0, 0)`, whose magnitude differs from the single-axis
displacement (right only) over the same `dt = 1` at speed 200. -/
theorem frame_displacement_cancel_cex :
    frameDisplacement ℝ (Real.sqrt 2)⁻¹ 200 1 true true true true = (0, 0) ∧
    (frameDisplacement ℝ (Real.sqrt 2)⁻¹ 200 1 true true true true).1 ^ 2 +
        (frameDisplacement ℝ (Real.sqrt 2)⁻¹ 200 1 true true true true).2 ^ 2 ≠
      (frameDisplacement ℝ (Real.sqrt 2)⁻¹ 200 1 false false false true).1 ^ 2 +
        (frameDisplacement ℝ (Real.sqrt 2)⁻¹ 200 1 false false false true).2 ^ 2 := by
  have h0 : frameDisplacement ℝ (Real.sqrt 2)⁻¹ 200 1 true true true true = (0, 0) := by
    simp [frameDisplacement, intentX, intentY]
  have h1 : frameDisplacement ℝ (Real.sqrt 2)⁻¹ 200 1 false false false true = (200, 0) := by
    simp [frameDisplacement, intentX, intentY]
  refine ⟨h0, ?_⟩
  rw [h0, h1]
  norm_num

/-- **C7** (status: corrected).  Amended claim: for every frame in which the
*net* horizontal intent and the *net* vertical intent are both nonzero (one
effective flag per axis; opposite flags cancel), the squared magnitude of
the frame's displacement vector equals that of a single-axis input over the
same `dt` — the direction is scaled by `1/√2` before multiplying by the
speed constant and `dt` — never `√2` times larger. -/
theorem diagonal_speed_normalized (speed dt : ℝ) (u d l r : Bool)
    (hx : intentX l r ≠ 0) (hy : intentY u d ≠ 0) :
    (frameDisplacement ℝ (Real.sqrt 2)⁻¹ speed dt u d l r).1 ^ 2 +
        (frameDisplacement ℝ (Real.sqrt 2)⁻¹ speed dt u d l r).2 ^ 2 =
      (frameDisplacement ℝ (Real.sqrt 2)⁻¹ speed dt false false false true).1 ^ 2 +
        (frameDisplacement ℝ (Real.sqrt 2)⁻¹ speed dt false false false true).2 ^ 2 := by
  have h2 := invRoot2_sq
  cases l <;> cases r <;> cases u <;> cases d <;>
    first
    | exact absurd rfl hx
    | exact absurd rfl hy
    | (simp only [frameDisplacement, intentX, intentY]
       norm_num
       linear_combination (speed ^ 2 * dt ^ 2 * 2) * h2)

/-- Witness for C7 at a concrete diagonal input (up and right, speed 200,
`dt = 1`). -/
theorem diagonal_speed_normalized_witness :
    (frameDisplacement ℝ (Real.sqrt 2)⁻¹ 200 1 true false false true).1 ^ 2 +
        (frameDisplacement ℝ (Real.sqrt 2)⁻¹ 200 1 true false false true).2 ^ 2 =
      (frameDisplacement ℝ (Real.sqrt 2)⁻¹ 200 1 false false false true).1 ^ 2 +
        (frameDisplacement ℝ (Real.sqrt 2)⁻¹ 200 1 false false false true).2 ^ 2 :=
  diagonal_speed_normalized 200 1 true false false true (by decide) (by decide)

/-! ## Claim C1 (player stays in bounds and collision-free) -/

/-- **C1 counterexample**.  The collision loop (lines 506-515) is a single
pass: pushing the body back out of one collider can land it on a collider
checked earlier in the list, and the overlap is never re-examined.  Starting
in bounds and collision-free at `x = 30` and moving right by 15, the player
(width 10) passes the thin collider at `x ∈ [40, 44)` (no overlap at
`x = 45`), hits the block at `x ∈ [48, 60)`, and is pushed back to
`x = 38..48` — which overlaps the thin collider.  After both per-axis steps
the player rectangle overlaps a collider of the map, contradicting the
claim. -/
theorem move_and_collide_residual_overlap_cex :
    inBoundsB 1000 1000 { x := 30, y := 100, w := 10, h := 22 } = true ∧
    collideB { x := 30, y := 100, w := 10, h := 22 }
      { x := 40, y := 0, w := 4, h := 1000 } = false ∧
    collideB { x := 30, y := 100, w := 10, h := 22 }
      { x := 48, y := 0, w := 12, h := 1000 } = false ∧
    collideB
      (moveAndCollide 1000 1000
        [{ x := 40, y := 0, w := 4, h := 1000 }, { x := 48, y := 0, w := 12, h := 1000 }]
        (moveAndCollide 1000 1000
          [{ x := 40, y := 0, w := 4, h := 1000 }, { x := 48, y := 0, w := 12, h := 1000 }]
          { x := 30, y := 100, w := 10, h := 22 } 15 0) 0 0)
      { x := 40, y := 0, w := 4, h := 1000 } = true := by
  decide

theorem collideLoop_of_no_collision (dx dy : ℚ) (p : Rect) (l : List Rect)
    (h : ∀ c ∈ l, collideB p c = false) : collideLoop dx dy p l = p := by
  induction l with
  | nil => rfl
  | cons c cs ih =>
    have hc := h c (by simp)
    simp only [collideLoop, hc, Bool.false_eq_true, if_false]
    exact ih (fun c' hc' => h c' (by simp [hc']))

theorem clampStep_w (W H : Int) (p : Rect) (dx dy : ℚ) :
    (clampStep W H p dx dy).w = p.w := rfl

theorem clampStep_h (W H : Int) (p : Rect) (dx dy : ℚ) :
    (clampStep W H p dx dy).h = p.h := rfl

theorem clampStep_inBounds (W H : Int) (p : Rect) (dx dy : ℚ)
    (hw : p.w ≤ W) (hh : p.h ≤ H) :
    inBoundsB W H (clampStep W H p dx dy) = true := by
  simp only [clampStep, inBoundsB, pyClamp]
  split_ifs <;> simp_all <;> omega

theorem pyInt_zero : pyInt 0 = 0 := rfl

theorem clampStep_id_of_inBounds (W H : Int) (p : Rect)
    (hb : inBoundsB W H p = true) : clampStep W H p 0 0 = p := by
  simp only [inBoundsB, Bool.and_eq_true, decide_eq_true_eq] at hb
  simp only [clampStep, pyInt_zero, add_zero, pyClamp]
  obtain ⟨⟨⟨h1, h2⟩, h3⟩, h4⟩ := hb
  split_ifs <;> (try omega) <;> rfl

/-- One axis step of `_move_and_collide` equals its move-and-clamp part
whenever the clamped body overlaps no collider (so no push-back fires);
requires the incoming body to be in bounds to cover the `dx == dy == 0`
early return. -/
theorem moveAndCollide_eq_clampStep (W H : Int) (colliders : List Rect) (p : Rect)
    (dx dy : ℚ) (hw : p.w ≤ W) (hh : p.h ≤ H) (hb : inBoundsB W H p = true)
    (h : ∀ c ∈ colliders, collideB (clampStep W H p dx dy) c = false) :
    moveAndCollide W H colliders p dx dy = clampStep W H p dx dy := by
  by_cases h0 : dx = 0 ∧ dy = 0
  · obtain ⟨h1, h2⟩ := h0
    subst h1; subst h2
    simp [moveAndCollide, clampStep_id_of_inBounds W H p hb]
  · simp only [moveAndCollide, h0, if_false]
    exact collideLoop_of_no_collision dx dy _ colliders h

/-- **C1** (status: corrected).  Amended claim: starting from a player
rectangle inside the world bounds, if on each of the two per-axis steps the
moved-and-clamped body overlaps no collider (the push-back never fires),
then after both steps the player lies fully within the world bounds and
overlaps no collider of the map.  The unamended claim fails because the
world-bounds clamp precedes the collision push-back, which can both move
the body out of bounds and (with several colliders) leave a residual
overlap. -/
theorem move_and_collide_safe (W H : Int) (colliders : List Rect) (p : Rect)
    (dx dy : ℚ) (hw : p.w ≤ W) (hh : p.h ≤ H)
    (hb : inBoundsB W H p = true)
    (h1 : ∀ c ∈ colliders, collideB (clampStep W H p dx 0) c = false)
    (h2 : ∀ c ∈ colliders,
        collideB (clampStep W H (clampStep W H p dx 0) 0 dy) c = false) :
    moveAndCollide W H colliders (moveAndCollide W H colliders p dx 0) 0 dy =
      clampStep W H (clampStep W H p dx 0) 0 dy ∧
    inBoundsB W H (clampStep W H (clampStep W H p dx 0) 0 dy) = true ∧
    ∀ c ∈ colliders,
      collideB (clampStep W H (clampStep W H p dx 0) 0 dy) c = false := by
  have hstep1 : moveAndCollide W H colliders p dx 0 = clampStep W H p dx 0 :=
    moveAndCollide_eq_clampStep W H colliders p dx 0 hw hh hb h1
  have hb1 : inBoundsB W H (clampStep W H p dx 0) = true :=
    clampStep_inBounds W H p dx 0 hw hh
  have hstep2 : moveAndCollide W H colliders (clampStep W H p dx 0) 0 dy =
      clampStep W H (clampStep W H p dx 0) 0 dy :=
    moveAndCollide_eq_clampStep W H colliders _ 0 dy
      (by rw [clampStep_w]; exact hw) (by rw [clampStep_h]; exact hh) hb1 h2
  refine ⟨by rw [hstep1, hstep2], ?_, h2⟩
  exact clampStep_inBounds W H _ 0 dy (by rw [clampStep_w]; exact hw)
    (by rw [clampStep_h]; exact hh)

/-- Witness for C1 at a concrete frame: a collider far from the moving
player; after both axis steps the player is in bounds and collision-free. -/
theorem move_and_collide_safe_witness :
    moveAndCollide 1000 1000 [{ x := 500, y := 500, w := 50, h := 50 }]
        (moveAndCollide 1000 1000 [{ x := 500, y := 500, w := 50, h := 50 }]
          { x := 100, y := 100, w := 18, h := 22 } 3 0) 0 4 =
      clampStep 1000 1000
        (clampStep 1000 1000 { x := 100, y := 100, w := 18, h := 22 } 3 0) 0 4 ∧
    inBoundsB 1000 1000
      (clampStep 1000 1000
        (clampStep 1000 1000 { x := 100, y := 100, w := 18, h := 22 } 3 0) 0 4) = true ∧
    ∀ c ∈ [({ x := 500, y := 500, w := 50, h := 50 } : Rect)],
      collideB
        (clampStep 1000 1000
          (clampStep 1000 1000 { x := 100, y := 100, w := 18, h := 22 } 3 0) 0 4) c
        = false :=
  move_and_collide_safe 1000 1000 _ _ 3 4 (by decide) (by decide) (by decide)
    (by decide) (by decide)

/-! ## Claim C4 (dialogue choice commit) -/

theorem dialogueTail_fst {α : Type} (s : DialogueState α) (node? : Option DialogueNode) :
    (dialogueTail s node?).1 = s := by
  simp only [dialogueTail]
  cases (node?.getD {}).action <;> dsimp only <;> (try split_ifs) <;> rfl

/-- **C4** (status: confirmed).  On a node with a non-empty choices list,
confirming with in-range selection index `i` (no selection movement that
frame) adds exactly `choices[i].trust_delta` once to `trust[npc_id]`, with a
missing entry counting as prior value 0 and every other NPC's entry
untouched; then, if the choice carries a (truthy) next-node id the current
node moves there with the selection reset, and otherwise the current node
does not change. -/
theorem dialogue_choice_commit {α : Type} (st : InputFrame) (s : DialogueState α)
    (node : DialogueNode) (cs : List DialogueChoice) (i : Nat)
    (hn : lookupNode s.nodes s.node_id = some node)
    (hcs : node.choices = some cs)
    (hne : cs ≠ [])
    (hcf : st.confirm_pressed = true)
    (hcan : st.cancel_pressed = false)
    (hsel : s.selected_choice = (i : Int))
    (hi : i < cs.length) :
    lookupD (dialogueHandleInput st [] s).1.trust s.npc_id =
      lookupD s.trust s.npc_id + (cs.getD i default).trust_delta ∧
    (∀ k, k ≠ s.npc_id →
      lookupD (dialogueHandleInput st [] s).1.trust k = lookupD s.trust k) ∧
    (truthyS (cs.getD i default).next = true →
      (dialogueHandleInput st [] s).1.node_id = (cs.getD i default).next.getD "" ∧
      (dialogueHandleInput st [] s).1.selected_choice = 0) ∧
    (truthyS (cs.getD i default).next = false →
      (dialogueHandleInput st [] s).1.node_id = s.node_id) := by
  have hclamp : clampedSelection s.selected_choice [] cs.length = (i : Int) := by
    simp only [clampedSelection, moveDelta, List.foldl_nil, hsel, add_zero]
    have h0 : ¬ ((i : Int) < 0) := by omega
    have h1 : ¬ ((i : Int) ≥ (cs.length : Int)) := by
      simp only [ge_iff_le, not_le]
      exact_mod_cast hi
    simp [h0, h1]
  have hres : (dialogueHandleInput st [] s).1 =
      (if truthyS (cs.getD i default).next then
        { s with
          trust := setKey s.trust s.npc_id
            (lookupD s.trust s.npc_id + (cs.getD i default).trust_delta),
          selected_choice := 0,
          node_id := (cs.getD i default).next.getD "" }
       else
        { s with
          trust := setKey s.trust s.npc_id
            (lookupD s.trust s.npc_id + (cs.getD i default).trust_delta),
          selected_choice := (i : Int) }) := by
    simp only [dialogueHandleInput, hcan, Bool.false_eq_true, if_false, hn,
      Option.getD_some, hcs, hclamp, Int.toNat_natCast]
    rw [if_pos hne, if_pos hcf]
    by_cases ht : truthyS (cs.getD i default).next = true
    · rw [if_pos ht, if_pos ht]
    · rw [if_neg ht, if_neg ht]
      exact dialogueTail_fst _ _
  rw [hres]
  by_cases ht : truthyS (cs.getD i default).next = true
  · rw [if_pos ht]
    exact ⟨lookupD_setKey_self _ _ _,
      fun k hk => lookupD_setKey_ne _ _ _ _ hk,
      fun _ => ⟨rfl, rfl⟩,
      fun hf => by rw [hf] at ht; exact Bool.noConfusion ht⟩
  · rw [if_neg ht]
    exact ⟨lookupD_setKey_self _ _ _,
      fun k hk => lookupD_setKey_ne _ _ _ _ hk,
      fun hf => absurd hf ht,
      fun _ => rfl⟩

/-- The two choices of the C4 witness scene. -/
def c4Choices : List DialogueChoice :=
  [{ label := "ok", trust_delta := 3, next := none },
   { label := "no", trust_delta := -2, next := some "B" }]

/-- The node of the C4 witness scene. -/
def c4Node : DialogueNode := { choices := some c4Choices }

/-- The C4 witness scene: selection on index 1, prior trust 5 for `"aya"`. -/
def c4State : DialogueState Nat :=
  { returnScene := 0, npc_id := "aya", nodes := [("n", c4Node)],
    node_id := "n", selected_choice := 1, trust := [("aya", 5), ("mika", 7)] }

/-- Witness for C4: confirming choice 1 (delta −2, next `"B"`). -/
theorem dialogue_choice_commit_witness :
    lookupD (dialogueHandleInput { confirm_pressed := true } [] c4State).1.trust "aya" =
      lookupD c4State.trust "aya" + (c4Choices.getD 1 default).trust_delta ∧
    (∀ k, k ≠ "aya" →
      lookupD (dialogueHandleInput { confirm_pressed := true } [] c4State).1.trust k =
        lookupD c4State.trust k) ∧
    (truthyS (c4Choices.getD 1 default).next = true →
      (dialogueHandleInput { confirm_pressed := true } [] c4State).1.node_id =
        (c4Choices.getD 1 default).next.getD "" ∧
      (dialogueHandleInput { confirm_pressed := true } [] c4State).1.selected_choice = 0) ∧
    (truthyS (c4Choices.getD 1 default).next = false →
      (dialogueHandleInput { confirm_pressed := true } [] c4State).1.node_id =
        c4State.node_id) :=
  dialogue_choice_commit { confirm_pressed := true } c4State c4Node c4Choices 1
    rfl rfl (by decide) rfl rfl rfl (by decide)

/-! ## Claim C3 (nearest-interactable resolution) -/

theorem distSq_nonneg (ax ay bx bY : Int) : 0 ≤ distSq ax ay bx bY :=
  add_nonneg (mul_self_nonneg _) (mul_self_nonneg _)

/-- Two rects of positive size whose centres coincide overlap; stated via a
zero squared centre distance. -/
theorem collideB_of_distSq_zero {a b : Rect}
    (ha : 0 < a.w ∧ 0 < a.h) (hb : 0 < b.w ∧ 0 < b.h)
    (h : distSq a.centerx a.centery b.centerx b.centery = 0) :
    collideB a b = true := by
  have hx : a.centerx - b.centerx = 0 := by
    have hsq : (a.centerx - b.centerx) * (a.centerx - b.centerx) = 0 := by
      have h1 := mul_self_nonneg (a.centerx - b.centerx)
      have h2 := mul_self_nonneg (a.centery - b.centery)
      simp only [distSq] at h
      omega
    exact mul_self_eq_zero.mp hsq
  have hy : a.centery - b.centery = 0 := by
    have hsq : (a.centery - b.centery) * (a.centery - b.centery) = 0 := by
      have h1 := mul_self_nonneg (a.centerx - b.centerx)
      have h2 := mul_self_nonneg (a.centery - b.centery)
      simp only [distSq] at h
      omega
    exact mul_self_eq_zero.mp hsq
  simp only [Rect.centerx, Rect.centery] at hx hy
  simp only [collideB, Bool.and_eq_true, bne_iff_ne, ne_eq, decide_eq_true_eq]
  obtain ⟨haw, hah⟩ := ha
  obtain ⟨hbw, hbh⟩ := hb
  refine ⟨⟨⟨⟨⟨⟨⟨?_, ?_⟩, ?_⟩, ?_⟩, ?_⟩, ?_⟩, ?_⟩, ?_⟩ <;> omega

/-- The effective distance of any interactable is nonnegative. -/
theorem effDist_nonneg (player : Rect) (i : Interactable) :
    0 ≤ effDist player i := by
  cases i <;> simp only [effDist] <;> (try split_ifs) <;>
    first
    | exact le_refl 0
    | exact distSq_nonneg _ _ _ _

theorem closestNpcAux_mem {px py : Int} {n : Npc} :
    ∀ (l : List Npc) (best : Option Npc) (bestD : Int),
      closestNpcAux px py best bestD l = some n → best = some n ∨ n ∈ l := by
  intro l
  induction l with
  | nil => intro best bestD h; exact Or.inl h
  | cons m rest ih =>
    intro best bestD h
    simp only [closestNpcAux] at h
    split_ifs at h with hd
    · rcases ih _ _ h with h' | h'
      · obtain rfl : m = n := Option.some_inj.mp h'
        exact Or.inr (by simp)
      · exact Or.inr (List.mem_cons_of_mem _ h')
    · rcases ih _ _ h with h' | h'
      · exact Or.inl h'
      · exact Or.inr (List.mem_cons_of_mem _ h')

theorem closestPortalAux_mem {player : Rect} {p : Portal} :
    ∀ (l : List Portal) (best : Option Portal) (bestD : Int),
      closestPortalAux player best bestD l = some p → best = some p ∨ p ∈ l := by
  intro l
  induction l with
  | nil => intro best bestD h; exact Or.inl h
  | cons m rest ih =>
    intro best bestD h
    simp only [closestPortalAux] at h
    split_ifs at h with hov hd
    · obtain rfl : m = p := Option.some_inj.mp h
      exact Or.inr (by simp)
    · rcases ih _ _ h with h' | h'
      · obtain rfl : m = p := Option.some_inj.mp h'
        exact Or.inr (by simp)
      · exact Or.inr (List.mem_cons_of_mem _ h')
    · rcases ih _ _ h with h' | h'
      · exact Or.inl h'
      · exact Or.inr (List.mem_cons_of_mem _ h')

theorem closestBookAux_mem {player : Rect} {b : Book} :
    ∀ (l : List Book) (best : Option Book) (bestD : Int),
      closestBookAux player best bestD l = some b → best = some b ∨ b ∈ l := by
  intro l
  induction l with
  | nil => intro best bestD h; exact Or.inl h
  | cons m rest ih =>
    intro best bestD h
    simp only [closestBookAux] at h
    split_ifs at h with hov hd
    · obtain rfl : m = b := Option.some_inj.mp h
      exact Or.inr (by simp)
    · rcases ih _ _ h with h' | h'
      · obtain rfl : m = b := Option.some_inj.mp h'
        exact Or.inr (by simp)
      · exact Or.inr (List.mem_cons_of_mem _ h')
    · rcases ih _ _ h with h' | h'
      · exact Or.inl h'
      · exact Or.inr (List.mem_cons_of_mem _ h')

/-- If some portal in the list overlaps the player, `_closest_portal` returns
an overlapping portal (the short-circuit of line 537-538). -/
theorem closestPortalAux_overlap {player : Rect} :
    ∀ (l : List Portal) (best : Option Portal) (bestD : Int),
      (∃ p ∈ l, collideB player p.rect = true) →
      ∃ p', closestPortalAux player best bestD l = some p' ∧
        collideB player p'.rect = true := by
  intro l
  induction l with
  | nil => intro best bestD h; simp at h
  | cons m rest ih =>
    intro best bestD h
    by_cases hov : collideB player m.rect = true
    · exact ⟨m, by simp [closestPortalAux, hov], hov⟩
    · have hrest : ∃ p ∈ rest, collideB player p.rect = true := by
        rcases h with ⟨p, hmem, hcol⟩
        rcases List.mem_cons.mp hmem with h' | h'
        · exact absurd (h' ▸ hcol) hov
        · exact ⟨p, h', hcol⟩
      simp only [closestPortalAux, hov, Bool.false_eq_true, if_false]
      split_ifs <;> exact ih _ _ hrest

/-- Book counterpart of `closestPortalAux_overlap`. -/
theorem closestBookAux_overlap {player : Rect} :
    ∀ (l : List Book) (best : Option Book) (bestD : Int),
      (∃ b ∈ l, collideB player b.rect = true) →
      ∃ b', closestBookAux player best bestD l = some b' ∧
        collideB player b'.rect = true := by
  intro l
  induction l with
  | nil => intro best bestD h; simp at h
  | cons m rest ih =>
    intro best bestD h
    by_cases hov : collideB player m.rect = true
    · exact ⟨m, by simp [closestBookAux, hov], hov⟩
    · have hrest : ∃ b ∈ rest, collideB player b.rect = true := by
        rcases h with ⟨b, hmem, hcol⟩
        rcases List.mem_cons.mp hmem with h' | h'
        · exact absurd (h' ▸ hcol) hov
        · exact ⟨b, h', hcol⟩
      simp only [closestBookAux, hov, Bool.false_eq_true, if_false]
      split_ifs <;> exact ih _ _ hrest

/-- A portal returned by `_closest_portal` either overlaps the player or
lies within the initial squared radius (the running bound only shrinks). -/
theorem closestPortalAux_dist {player : Rect} {p : Portal} :
    ∀ (l : List Portal) (best : Option Portal) (bestD : Int),
      closestPortalAux player best bestD l = some p →
      best = some p ∨ collideB player p.rect = true ∨
        distSq player.centerx player.centery p.rect.centerx p.rect.centery ≤ bestD := by
  intro l
  induction l with
  | nil => intro best bestD h; exact Or.inl h
  | cons m rest ih =>
    intro best bestD h
    simp only [closestPortalAux] at h
    split_ifs at h with hov hd
    · obtain rfl : m = p := Option.some_inj.mp h
      exact Or.inr (Or.inl hov)
    · rcases ih _ _ h with h' | h' | h'
      · obtain rfl : m = p := Option.some_inj.mp h'
        exact Or.inr (Or.inr hd)
      · exact Or.inr (Or.inl h')
      · exact Or.inr (Or.inr (le_trans h' hd))
    · rcases ih _ _ h with h' | h' | h'
      · exact Or.inl h'
      · exact Or.inr (Or.inl h')
      · exact Or.inr (Or.inr h')

/-- The effective distance of a portal returned by `_closest_portal` with
radius 70 is below the resolver's initial bound of 999999999. -/
theorem closestPortal_effDist_lt {player : Rect} {portals : List Portal} {p : Portal}
    (h : closestPortal player 70 portals = some p) :
    effDist player (.portal p) < 999999999 := by
  rcases closestPortalAux_dist portals none (70 * 70) h with h' | h' | h'
  · exact absurd h' (by simp)
  · simp [effDist, h']
  · have hnn := distSq_nonneg player.centerx player.centery p.rect.centerx p.rect.centery
    by_cases hc : collideB player p.rect = true <;> simp [effDist, hc] <;> omega

/-- **C3** (status: confirmed).  The resolver returns at most one result (it
is a function into `Option`).  First conjunct: whenever some transition zone
or readable overlaps the player rectangle, the returned interactable itself
overlaps the player (overlap counts as distance 0 and beats every
non-overlapping candidate, whose centre distance is strictly positive).
Second conjunct: when an NPC is within the 48px radius, the resolver either
returns that NPC or returns a portal/book whose effective distance is
strictly smaller, comparisons on squared distances.  Positive sizes for the
player and object rectangles are assumed (all map objects have them). -/
theorem nearest_interactable_spec (player : Rect) (npcs : List Npc)
    (portals : List Portal) (books : List Book)
    (hp : 0 < player.w ∧ 0 < player.h)
    (hnp : ∀ n ∈ npcs, 0 < n.rect.w ∧ 0 < n.rect.h)
    (hpo : ∀ p ∈ portals, 0 < p.rect.w ∧ 0 < p.rect.h) :
    (((∃ p ∈ portals, collideB player p.rect = true) ∨
      (∃ b ∈ books, collideB player b.rect = true)) →
      ∃ i, nearestInteractable player npcs portals books = some i ∧
        collideB player i.rect = true) ∧
    (∀ n, closestNpc player 48 npcs = some n →
      ∃ i, nearestInteractable player npcs portals books = some i ∧
        (i = .npc n ∨ effDist player i <
          distSq player.centerx player.centery n.rect.centerx n.rect.centery)) := by
  have hnpcOv : ∀ n, closestNpc player 48 npcs = some n →
      effDist player (.npc n) = 0 → collideB player n.rect = true := by
    intro n hn h0
    have hmem : n ∈ npcs := by
      rcases closestNpcAux_mem npcs none _ hn with h | h
      · exact absurd h (by simp)
      · exact h
    exact collideB_of_distSq_zero hp (hnp n hmem) (by simpa [effDist] using h0)
  have hporOv : ∀ p, p ∈ portals →
      effDist player (.portal p) = 0 → collideB player p.rect = true := by
    intro p hmem h0
    by_cases hc : collideB player p.rect = true
    · exact hc
    · have hc' : collideB player p.rect = false := by
        cases h : collideB player p.rect
        · rfl
        · exact absurd h hc
      have hd : distSq player.centerx player.centery p.rect.centerx p.rect.centery = 0 := by
        simpa [effDist, hc'] using h0
      exact collideB_of_distSq_zero hp (hpo p hmem) hd
  constructor
  · -- overlap with a portal/readable wins
    intro hov
    cases hN : closestNpc player 48 npcs with
    | none =>
      rcases hov with ⟨p0, hmem0, hov0⟩ | ⟨b0, hmem0, hov0⟩
      · obtain ⟨p1, hpeq, hp1⟩ :=
          closestPortalAux_overlap portals none (70 * 70) ⟨p0, hmem0, hov0⟩
        have hd1 : effDist player (.portal p1) = 0 := by simp [effDist, hp1]
        cases hB : closestBook player 60 books with
        | none =>
          refine ⟨.portal p1, ?_, hp1⟩
          simp only [nearestInteractable, hN, closestPortal, hpeq, hB, hd1]
          norm_num
        | some b1 =>
          refine ⟨.portal p1, ?_, hp1⟩
          have hnb : ¬ effDist player (.book b1) < 0 :=
            not_lt.mpr (effDist_nonneg player (.book b1))
          simp only [nearestInteractable, hN, closestPortal, hpeq, hB, hd1]
          norm_num [hnb]
      · -- a readable overlaps; the portal search may or may not return
        obtain ⟨b1, hbeq, hb1⟩ :=
          closestBookAux_overlap books none (60 * 60) ⟨b0, hmem0, hov0⟩
        have hd1 : effDist player (.book b1) = 0 := by simp [effDist, hb1]
        cases hP : closestPortal player 70 portals with
        | none =>
          refine ⟨.book b1, ?_, hb1⟩
          simp only [nearestInteractable, hN, hP, closestBook, hbeq, hd1]
          norm_num
        | some p1 =>
          have hpmem : p1 ∈ portals := by
            rcases closestPortalAux_mem portals none _ hP with h | h
            · exact absurd h (by simp)
            · exact h
          have hdp : effDist player (.portal p1) < 999999999 :=
            closestPortal_effDist_lt hP
          by_cases hdb : effDist player (.book b1) < effDist player (.portal p1)
          · refine ⟨.book b1, ?_, hb1⟩
            simp only [nearestInteractable, hN, hP, closestBook, hbeq, hdp, if_true, hdb]
          · -- the portal's effective distance is ≤ 0, hence 0: it overlaps
            have hdp0 : effDist player (.portal p1) = 0 := by
              have h1 := effDist_nonneg player (.portal p1)
              rw [hd1] at hdb
              omega
            refine ⟨.portal p1, ?_, hporOv p1 hpmem hdp0⟩
            simp only [nearestInteractable, hN, hP, closestBook, hbeq, hdp, if_true, hdb,
              if_false]
    | some n =>
      have hDn := effDist_nonneg player (.npc n)
      by_cases hzero : effDist player (.npc n) = 0
      · -- the best NPC shares the player's centre, hence overlaps
        have hcoln : collideB player n.rect = true := hnpcOv n hN hzero
        cases hP : closestPortal player 70 portals with
        | none =>
          cases hB : closestBook player 60 books with
          | none =>
            exact ⟨.npc n, by simp only [nearestInteractable, hN, hP, hB], hcoln⟩
          | some b1 =>
            have hnb : ¬ effDist player (.book b1) < effDist player (.npc n) := by
              rw [hzero]; exact not_lt.mpr (effDist_nonneg player (.book b1))
            exact ⟨.npc n, by simp only [nearestInteractable, hN, hP, hB, hnb, if_false], hcoln⟩
        | some p1 =>
          have hnp3 : ¬ effDist player (.portal p1) < effDist player (.npc n) := by
            rw [hzero]; exact not_lt.mpr (effDist_nonneg player (.portal p1))
          cases hB : closestBook player 60 books with
          | none =>
            exact ⟨.npc n, by simp only [nearestInteractable, hN, hP, hB, hnp3, if_false], hcoln⟩
          | some b1 =>
            have hnb : ¬ effDist player (.book b1) < effDist player (.npc n) := by
              rw [hzero]; exact not_lt.mpr (effDist_nonneg player (.book b1))
            exact ⟨.npc n,
              by simp only [nearestInteractable, hN, hP, hB, hnp3, if_false, hnb], hcoln⟩
      · -- the best NPC does not overlap: an overlapping portal/book wins
        have hpos : 0 < effDist player (.npc n) := lt_of_le_of_ne hDn (Ne.symm hzero)
        rcases hov with ⟨p0, hmem0, hov0⟩ | ⟨b0, hmem0, hov0⟩
        · obtain ⟨p1, hpeq, hp1⟩ :=
            closestPortalAux_overlap portals none (70 * 70) ⟨p0, hmem0, hov0⟩
          have hd1 : effDist player (.portal p1) = 0 := by simp [effDist, hp1]
          have hwin : effDist player (.portal p1) < effDist player (.npc n) := by
            rw [hd1]; exact hpos
          cases hB : closestBook player 60 books with
          | none =>
            refine ⟨.portal p1, ?_, hp1⟩
            simp only [nearestInteractable, hN, closestPortal, hpeq, hB, hwin, if_true]
          | some b1 =>
            have hnb : ¬ effDist player (.book b1) < effDist player (.portal p1) := by
              rw [hd1]; exact not_lt.mpr (effDist_nonneg player (.book b1))
            refine ⟨.portal p1, ?_, hp1⟩
            simp only [nearestInteractable, hN, closestPortal, hpeq, hB, hwin, if_true,
              hnb, if_false]
        · obtain ⟨b1, hbeq, hb1⟩ :=
            closestBookAux_overlap books none (60 * 60) ⟨b0, hmem0, hov0⟩
          have hd1 : effDist player (.book b1) = 0 := by simp [effDist, hb1]
          cases hP : closestPortal player 70 portals with
          | none =>
            have hwin : effDist player (.book b1) < effDist player (.npc n) := by
              rw [hd1]; exact hpos
            refine ⟨.book b1, ?_, hb1⟩
            simp only [nearestInteractable, hN, hP, closestBook, hbeq, hwin, if_true]
          | some p1 =>
            have hpmem : p1 ∈ portals := by
              rcases closestPortalAux_mem portals none _ hP with h | h
              · exact absurd h (by simp)
              · exact h
            by_cases hdp : effDist player (.portal p1) < effDist player (.npc n)
            · by_cases hdb : effDist player (.book b1) < effDist player (.portal p1)
              · refine ⟨.book b1, ?_, hb1⟩
                simp only [nearestInteractable, hN, hP, closestBook, hbeq, hdp, if_true,
                  hdb]
              · have hdp0 : effDist player (.portal p1) = 0 := by
                  have h1 := effDist_nonneg player (.portal p1)
                  rw [hd1] at hdb
                  omega
                refine ⟨.portal p1, ?_, hporOv p1 hpmem hdp0⟩
                simp only [nearestInteractable, hN, hP, closestBook, hbeq, hdp, if_true,
                  hdb, if_false]
            · have hwin : effDist player (.book b1) < effDist player (.npc n) := by
                rw [hd1]; exact hpos
              refine ⟨.book b1, ?_, hb1⟩
              simp only [nearestInteractable, hN, hP, closestBook, hbeq, hdp, if_false,
                hwin, if_true]
  · -- an in-range NPC is replaced only by a strictly closer portal/book
    intro n hn
    have hDn : effDist player (.npc n) =
        distSq player.centerx player.centery n.rect.centerx n.rect.centery := rfl
    cases hP : closestPortal player 70 portals with
    | none =>
      cases hB : closestBook player 60 books with
      | none =>
        exact ⟨.npc n, by simp only [nearestInteractable, hn, hP, hB], Or.inl rfl⟩
      | some b1 =>
        by_cases hdb : effDist player (.book b1) < effDist player (.npc n)
        · exact ⟨.book b1,
            by simp only [nearestInteractable, hn, hP, hB, hdb, if_true],
            Or.inr (hDn ▸ hdb)⟩
        · exact ⟨.npc n,
            by simp only [nearestInteractable, hn, hP, hB, hdb, if_false], Or.inl rfl⟩
    | some p1 =>
      by_cases hdp : effDist player (.portal p1) < effDist player (.npc n)
      · cases hB : closestBook player 60 books with
        | none =>
          exact ⟨.portal p1,
            by simp only [nearestInteractable, hn, hP, hB, hdp, if_true],
            Or.inr (hDn ▸ hdp)⟩
        | some b1 =>
          by_cases hdb : effDist player (.book b1) < effDist player (.portal p1)
          · exact ⟨.book b1,
              by simp only [nearestInteractable, hn, hP, hB, hdp, if_true, hdb],
              Or.inr (hDn ▸ (lt_trans hdb hdp))⟩
          · exact ⟨.portal p1,
              by simp only [nearestInteractable, hn, hP, hB, hdp, if_true, hdb, if_false],
              Or.inr (hDn ▸ hdp)⟩
      · cases hB : closestBook player 60 books with
        | none =>
          exact ⟨.npc n,
            by simp only [nearestInteractable, hn, hP, hB, hdp, if_false], Or.inl rfl⟩
        | some b1 =>
          by_cases hdb : effDist player (.book b1) < effDist player (.npc n)
          · exact ⟨.book b1,
              by simp only [nearestInteractable, hn, hP, hB, hdp, if_false, hdb, if_true],
              Or.inr (hDn ▸ hdb)⟩
          · exact ⟨.npc n,
              by simp only [nearestInteractable, hn, hP, hB, hdp, if_false, hdb],
              Or.inl rfl⟩

/-- The player of the C3 witness scene (centre `(9, 11)`). -/
def c3Player : Rect := { x := 0, y := 0, w := 18, h := 22 }

/-- The NPC of the C3 witness scene: centre `(21, 12)`, squared distance 145,
well inside the 48px radius and closer than any non-overlapping candidate. -/
def c3Npc : Npc := { npc_id := "aya", dialogue := none, rect := { x := 20, y := 11, w := 2, h := 2 } }

/-- The portal of the C3 witness scene: overlaps the player outright. -/
def c3Portal : Portal :=
  { rect := { x := 0, y := 0, w := 50, h := 50 }, target_map := "house_1",
    target_x := some 240, target_y := some 300, target_zoom := none }

/-- Witness for C3: the overlapping portal wins over the closer-by-centre
NPC, and the NPC is replaced only by a strictly closer effective distance. -/
theorem nearest_interactable_spec_witness :
    (∃ i, nearestInteractable c3Player [c3Npc] [c3Portal] [] = some i ∧
        collideB c3Player i.rect = true) ∧
    (∃ i, nearestInteractable c3Player [c3Npc] [c3Portal] [] = some i ∧
      (i = .npc c3Npc ∨ effDist c3Player i <
        distSq c3Player.centerx c3Player.centery c3Npc.rect.centerx c3Npc.rect.centery)) := by
  have h := nearest_interactable_spec c3Player [c3Npc] [c3Portal] []
    (by decide) (by decide) (by decide)
  exact ⟨h.1 (Or.inl ⟨c3Portal, by simp, by decide⟩), h.2 c3Npc (by decide)⟩

/-! ## Claim C8 (portal interaction transitions to the target map) -/

/-- The first portal in the list that overlaps the player short-circuits
`_closest_portal`, whatever came before. -/
theorem closestPortalAux_first_overlap {player : Rect} {p : Portal} (post : List Portal) :
    ∀ (pre : List Portal) (best : Option Portal) (bestD : Int),
      (∀ q ∈ pre, collideB player q.rect = false) →
      collideB player p.rect = true →
      closestPortalAux player best bestD (pre ++ p :: post) = some p := by
  intro pre
  induction pre with
  | nil =>
    intro best bestD hpre hov
    simp [closestPortalAux, hov]
  | cons m rest ih =>
    intro best bestD hpre hov
    have hm : collideB player m.rect = false := hpre m (by simp)
    simp only [List.cons_append, closestPortalAux, hm, Bool.false_eq_true, if_false]
    split_ifs <;> exact ih _ _ (fun q hq => hpre q (by simp [hq])) hov

/-- The resolver picks the first overlapping portal whenever one exists and
no NPC shares the player's centre. -/
theorem nearest_picks_overlapping_portal (w : WorldState)
    (pre post : List Portal) (p : Portal)
    (hsplit : w.portals = pre ++ p :: post)
    (hpre : ∀ q ∈ pre, collideB w.player q.rect = false)
    (hov : collideB w.player p.rect = true)
    (hnpc : ∀ n ∈ w.npcs,
      distSq w.player.centerx w.player.centery n.rect.centerx n.rect.centery ≠ 0) :
    nearestInteractable w.player w.npcs w.portals w.books = some (.portal p) := by
  have hcp : closestPortal w.player 70 w.portals = some p := by
    rw [closestPortal, hsplit]
    exact closestPortalAux_first_overlap post pre none _ hpre hov
  have hd0 : effDist w.player (.portal p) = 0 := by simp [effDist, hov]
  cases hN : closestNpc w.player 48 w.npcs with
  | none =>
    cases hB : closestBook w.player 60 w.books with
    | none =>
      simp only [nearestInteractable, hN, hcp, hB, hd0]
      norm_num
    | some b1 =>
      have hnb : ¬ effDist w.player (.book b1) < 0 :=
        not_lt.mpr (effDist_nonneg w.player (.book b1))
      simp only [nearestInteractable, hN, hcp, hB, hd0]
      norm_num [hnb]
  | some n =>
    have hmem : n ∈ w.npcs := by
      rcases closestNpcAux_mem w.npcs none _ hN with h | h
      · exact absurd h (by simp)
      · exact h
    have hpos : 0 < effDist w.player (.npc n) :=
      lt_of_le_of_ne (distSq_nonneg _ _ _ _) (Ne.symm (hnpc n hmem))
    have hwin : effDist w.player (.portal p) < effDist w.player (.npc n) := by
      rw [hd0]; exact hpos
    cases hB : closestBook w.player 60 w.books with
    | none =>
      simp only [nearestInteractable, hN, hcp, hB, hwin, if_true]
    | some b1 =>
      have hnb : ¬ effDist w.player (.book b1) < effDist w.player (.portal p) := by
        rw [hd0]; exact not_lt.mpr (effDist_nonneg w.player (.book b1))
      simp only [nearestInteractable, hN, hcp, hB, hwin, if_true, hnb, if_false]

/-- **C8** (status: corrected).  Amended claim: if the player overlaps a
portal rectangle — the first overlapping one in the map's portal list — no
NPC's centre coincides with the player's centre, and the portal declares a
non-empty `target_map` with numeric target coordinates, then pressing
interact produces a transition to a World scene whose map id equals the
declared `target_map` and whose player rectangle position equals the
declared coordinates *truncated to integers* (`pygame.Rect` stores `int`
coordinates; the constructor applies `int(...)` at line 316). -/
theorem portal_interact_transition (st : InputFrame) (w : WorldState)
    (pre post : List Portal) (p : Portal) (tx ty : ℚ)
    (hsplit : w.portals = pre ++ p :: post)
    (hpre : ∀ q ∈ pre, collideB w.player q.rect = false)
    (hov : collideB w.player p.rect = true)
    (hnpc : ∀ n ∈ w.npcs,
      distSq w.player.centerx w.player.centery n.rect.centerx n.rect.centery ≠ 0)
    (htm : p.target_map ≠ "")
    (htx : p.target_x = some tx) (hty : p.target_y = some ty)
    (hint : st.interact_pressed = true) (hcan : st.cancel_pressed = false) :
    worldHandleInput st w = .world p.target_map tx ty p.target_zoom ∧
    ∀ pw ph : Int, spawnPlayerRect tx ty pw ph =
      { x := pyInt tx, y := pyInt ty, w := pw, h := ph } := by
  have hres := nearest_picks_overlapping_portal w pre post p hsplit hpre hov hnpc
  refine ⟨?_, fun pw ph => rfl⟩
  simp only [worldHandleInput, hcan, Bool.false_eq_true, if_false, hres, hint, if_true,
    htx, hty, Option.getD_some, htm, ne_eq, not_false_eq_true]

/-- The declared fractional target coordinate `240.5` of the C8
counterexample. -/
def halfPx : ℚ := ⟨481, 2, by norm_num, by norm_num⟩

/-- The portal of the C8 counterexample, overlapping the player and
declaring fractional target coordinates. -/
def c8Portal : Portal :=
  { rect := { x := 0, y := 0, w := 40, h := 40 }, target_map := "house_1",
    target_x := some halfPx, target_y := some 300, target_zoom := none }

/-- The world of the C8 counterexample. -/
def c8World : WorldState :=
  { map_id := "city", player := { x := 0, y := 0, w := 18, h := 22 },
    npcs := [], portals := [c8Portal], books := [] }

/-- **C8 counterexample**.  The transition fires with the declared map id,
but the new scene's player rectangle position is the *truncation*
`(240, 300)` of the declared `(240.5, 300)`: the position does not equal the
declared coordinates, as the claim states it for any declared
coordinates. -/
theorem portal_spawn_truncation_cex :
    worldHandleInput { interact_pressed := true } c8World =
      .world "house_1" halfPx 300 none ∧
    spawnPlayerRect halfPx 300 18 22 = { x := 240, y := 300, w := 18, h := 22 } ∧
    ((spawnPlayerRect halfPx 300 18 22).x : ℚ) ≠ halfPx := by
  refine ⟨by decide, by decide, ?_⟩
  intro h
  have h2 : ((240 : Int) : ℚ) = halfPx := h
  have h3 : ((240 : Int) : ℚ).num = halfPx.num := by rw [h2]
  simp [halfPx] at h3

/-- The NPC of the C8 witness (centre away from the player's centre). -/
def c8wNpc : Npc :=
  { npc_id := "ren", dialogue := none, rect := { x := 30, y := 5, w := 4, h := 4 } }

/-- The portal of the C8 witness, integral target coordinates. -/
def c8wPortal : Portal :=
  { rect := { x := 10, y := 10, w := 30, h := 30 }, target_map := "house_2",
    target_x := some 100, target_y := some 120, target_zoom := none }

/-- The world of the C8 witness. -/
def c8wWorld : WorldState :=
  { map_id := "city", player := { x := 5, y := 5, w := 18, h := 22 },
    npcs := [c8wNpc], portals := [c8wPortal], books := [] }

/-- Witness for C8 at a concrete overlapping portal with integral targets. -/
theorem portal_interact_transition_witness :
    worldHandleInput { interact_pressed := true } c8wWorld =
      .world "house_2" 100 120 none ∧
    ∀ pw ph : Int, spawnPlayerRect 100 120 pw ph =
      { x := pyInt 100, y := pyInt 120, w := pw, h := ph } :=
  portal_interact_transition { interact_pressed := true } c8wWorld
    [] [] c8wPortal 100 120 rfl (by simp) (by decide) (by decide)
    (by decide) rfl rfl rfl rfl

/-! ## Claim C2 (quiz scoring) -/

theorem moveDelta_replicate_down (k : Nat) :
    moveDelta (List.replicate k .down) = (k : Int) := by
  have haux : ∀ (k : Nat) (acc : Int),
      List.foldl (fun acc ev => match ev with
        | KeyEv.up => acc - 1
        | KeyEv.down => acc + 1
        | KeyEv.other => acc) acc (List.replicate k .down) = acc + k := by
    intro k
    induction k with
    | zero => intro acc; simp
    | succ m ih =>
      intro acc
      rw [List.replicate_succ, List.foldl_cons, ih]
      show acc + 1 + (m : Int) = acc + ((m + 1 : Nat) : Int)
      push_cast
      omega
  simpa [moveDelta] using haux k 0

theorem clampedSelection_replicate (k len : Nat) (h : k < len) :
    clampedSelection 0 (List.replicate k .down) len = (k : Int) := by
  simp only [clampedSelection, moveDelta_replicate_down, zero_add]
  have h0 : ¬ ((k : Int) < 0) := by omega
  have h1 : ¬ ((k : Int) ≥ (len : Int)) := by
    simp only [ge_iff_le, not_le]
    exact_mod_cast h
  simp [h0, h1]

/-- The state after `handle_input` grades the current question against the
confirm-time selection `k` (lines 931-942): feedback mode entered, the
question's points credited to the running total and to the save's
`total`/category buckets exactly when `k` equals `correct_index`. -/
def gradedState {α : Type} (s : ChallengeState α) (k : Nat) : ChallengeState α :=
  let q := s.questions.getD s.qi default
  if (k : Int) = q.correct_index then
    { s with selected := (k : Int), last_correct := true, last_expl := q.explanation,
             points_earned := s.points_earned + q.points,
             scores := setKey (setKey s.scores "total" (lookupD s.scores "total" + q.points))
               s.category
               (lookupD (setKey s.scores "total" (lookupD s.scores "total" + q.points))
                 s.category + q.points),
             showing_feedback := true }
  else
    { s with selected := (k : Int), last_correct := false, last_expl := q.explanation,
             showing_feedback := true }

theorem challenge_answer_step {α : Type} (s : ChallengeState α) (k : Nat)
    (hq : s.questions ≠ []) (hf : s.showing_feedback = false) (hsel : s.selected = 0)
    (hk : k < (s.questions.getD s.qi default).choices.length) :
    challengeHandleInput { confirm_pressed := true } (List.replicate k .down) s =
      (gradedState s k, .stay) := by
  have hclamp := clampedSelection_replicate k
    (s.questions.getD s.qi default).choices.length hk
  simp only [challengeHandleInput, hq, hf, Bool.false_eq_true, if_false, hsel, hclamp,
    gradedState]
  by_cases hc : (k : Int) = (s.questions[s.qi]?.getD default).correct_index <;>
    simp [hc]

/-- The state after a feedback confirm that moves to the next question
(lines 907-910): feedback dismissed, selection reset, question index
advanced. -/
def advanceState {α : Type} (s : ChallengeState α) : ChallengeState α :=
  { s with showing_feedback := false, selected := 0, qi := s.qi + 1 }

/-- The state after the feedback confirm on the last question
(lines 911-915): as `advanceState`, plus the quiz-set id recorded as
completed. -/
def finishState {α : Type} (s : ChallengeState α) : ChallengeState α :=
  { s with showing_feedback := false, selected := 0, qi := s.qi + 1,
           completed := markCompleted s.completed s.set_id }

theorem challenge_feedback_next {α : Type} (s : ChallengeState α)
    (hq : s.questions ≠ []) (hf : s.showing_feedback = true)
    (hlt : s.qi + 1 < s.questions.length) :
    challengeHandleInput { confirm_pressed := true } [] s =
      (advanceState s, .stay) := by
  have hge : ¬ (s.qi + 1 ≥ s.questions.length) := by omega
  simp only [challengeHandleInput, hq, hf, if_true, if_false, advanceState]
  simp [hge]

theorem challenge_feedback_last {α : Type} (s : ChallengeState α)
    (hq : s.questions ≠ []) (hf : s.showing_feedback = true)
    (hge : s.questions.length ≤ s.qi + 1) :
    challengeHandleInput { confirm_pressed := true } [] s =
      (finishState s,
       .results s.returnScene s.title s.points_earned s.max_points) := by
  have hge2 : s.qi + 1 ≥ s.questions.length := hge
  simp only [challengeHandleInput, hq, hf, if_true, if_false, finishState]
  simp [hge2]

theorem quizFrames_cons (k : Nat) (rest : List Nat) :
    quizFrames (k :: rest) = answerFrame k :: confirmFrame :: quizFrames rest := by
  simp [quizFrames]

theorem zscore_cons_drop (qs : List Question) (i : Nat) (hi : i < qs.length)
    (k : Nat) (ks : List Nat) :
    zscore (qs.drop i) (k :: ks) =
      (if (k : Int) = (qs.getD i default).correct_index
        then (qs.getD i default).points else 0) +
      zscore (qs.drop (i + 1)) ks := by
  rw [List.drop_eq_getElem_cons hi]
  simp [zscore, List.getD_eq_getElem?_getD, List.getElem?_eq_getElem hi]

theorem gradedState_showing_feedback {α : Type} (s : ChallengeState α) (k : Nat) :
    (gradedState s k).showing_feedback = true := by
  simp only [gradedState]; split_ifs <;> rfl

theorem gradedState_questions {α : Type} (s : ChallengeState α) (k : Nat) :
    (gradedState s k).questions = s.questions := by
  simp only [gradedState]; split_ifs <;> rfl

theorem gradedState_qi {α : Type} (s : ChallengeState α) (k : Nat) :
    (gradedState s k).qi = s.qi := by
  simp only [gradedState]; split_ifs <;> rfl

theorem gradedState_returnScene {α : Type} (s : ChallengeState α) (k : Nat) :
    (gradedState s k).returnScene = s.returnScene := by
  simp only [gradedState]; split_ifs <;> rfl

theorem gradedState_title {α : Type} (s : ChallengeState α) (k : Nat) :
    (gradedState s k).title = s.title := by
  simp only [gradedState]; split_ifs <;> rfl

theorem gradedState_category {α : Type} (s : ChallengeState α) (k : Nat) :
    (gradedState s k).category = s.category := by
  simp only [gradedState]; split_ifs <;> rfl

theorem gradedState_set_id {α : Type} (s : ChallengeState α) (k : Nat) :
    (gradedState s k).set_id = s.set_id := by
  simp only [gradedState]; split_ifs <;> rfl

theorem gradedState_max_points {α : Type} (s : ChallengeState α) (k : Nat) :
    (gradedState s k).max_points = s.max_points := by
  simp only [gradedState]; split_ifs <;> rfl

theorem gradedState_completed {α : Type} (s : ChallengeState α) (k : Nat) :
    (gradedState s k).completed = s.completed := by
  simp only [gradedState]; split_ifs <;> rfl

theorem gradedState_points {α : Type} (s : ChallengeState α) (k : Nat) :
    (gradedState s k).points_earned = s.points_earned +
      (if (k : Int) = (s.questions.getD s.qi default).correct_index
        then (s.questions.getD s.qi default).points else 0) := by
  simp only [gradedState]; split_ifs with h <;> simp

theorem gradedState_scores_total {α : Type} (s : ChallengeState α) (k : Nat)
    (hcat : s.category ≠ "total") :
    lookupD (gradedState s k).scores "total" = lookupD s.scores "total" +
      (if (k : Int) = (s.questions.getD s.qi default).correct_index
        then (s.questions.getD s.qi default).points else 0) := by
  have hne : ("total" : String) ≠ s.category := fun e => hcat e.symm
  simp only [gradedState]
  split_ifs with h
  · show lookupD (setKey (setKey s.scores "total" _) s.category _) "total" = _
    rw [lookupD_setKey_ne _ _ _ _ hne, lookupD_setKey_self]
  · simp

theorem gradedState_scores_cat {α : Type} (s : ChallengeState α) (k : Nat)
    (hcat : s.category ≠ "total") :
    lookupD (gradedState s k).scores s.category = lookupD s.scores s.category +
      (if (k : Int) = (s.questions.getD s.qi default).correct_index
        then (s.questions.getD s.qi default).points else 0) := by
  simp only [gradedState]
  split_ifs with h
  · show lookupD (setKey (setKey s.scores "total" _) s.category _) s.category = _
    rw [lookupD_setKey_self, lookupD_setKey_ne _ _ _ _ hcat]
  · simp

theorem zscore_nil (qs : List Question) : zscore qs [] = 0 := by
  cases qs <;> rfl

theorem quizFrames_nil : quizFrames [] = [] := rfl

/-- One complete run of `ChallengeScene.handle_input` over the frame list
that answers question `qi + j` with selection `sels[j]`, starting from any
answering-mode state: the run ends in a Results transition whose points are
the prior points plus the sum of `points` over the correctly answered
questions, whose max is the untouched `max_points`, with the save's `total`
and category buckets incremented by the same amount and the set id recorded
as completed. -/
theorem quiz_run_loop {α : Type} :
    ∀ (sels : List Nat) (s : ChallengeState α),
      s.showing_feedback = false →
      s.selected = 0 →
      s.category ≠ "total" →
      sels ≠ [] →
      s.qi + sels.length = s.questions.length →
      (∀ j, (hj : j < sels.length) → sels.get ⟨j, hj⟩ <
        (s.questions.getD (s.qi + j) default).choices.length) →
      ∃ sf : ChallengeState α,
        runChallenge s (quizFrames sels) =
          (sf, some (.results s.returnScene s.title
            (s.points_earned + zscore (s.questions.drop s.qi) sels) s.max_points)) ∧
        sf.points_earned = s.points_earned + zscore (s.questions.drop s.qi) sels ∧
        sf.max_points = s.max_points ∧
        lookupD sf.scores "total" =
          lookupD s.scores "total" + zscore (s.questions.drop s.qi) sels ∧
        lookupD sf.scores s.category =
          lookupD s.scores s.category + zscore (s.questions.drop s.qi) sels ∧
        sf.completed = markCompleted s.completed s.set_id := by
  intro sels
  induction sels with
  | nil => intro s _ _ _ hne _ _; exact absurd rfl hne
  | cons k rest ih =>
    intro s hf hsel hcat _ hlen hin
    have hqi : s.qi < s.questions.length := by
      simp only [List.length_cons] at hlen
      omega
    have hqne : s.questions ≠ [] := by
      intro he
      rw [he] at hqi
      simp at hqi
    have hk : k < (s.questions.getD s.qi default).choices.length := by
      have h0 := hin 0 (by simp)
      simpa using h0
    have hA := challenge_answer_step s k hqne hf hsel hk
    have hzc := zscore_cons_drop s.questions s.qi hqi k rest
    have hq1 : (gradedState s k).questions ≠ [] := by
      rw [gradedState_questions]; exact hqne
    rcases rest with _ | ⟨k2, rest2⟩
    · -- this was the last question
      have hge : (gradedState s k).questions.length ≤ (gradedState s k).qi + 1 := by
        rw [gradedState_questions, gradedState_qi]
        simp only [List.length_cons, List.length_nil] at hlen
        omega
      have hB := challenge_feedback_last (gradedState s k) hq1
        (gradedState_showing_feedback s k) hge
      have hrun : runChallenge s (quizFrames [k]) =
          (finishState (gradedState s k),
           some (.results (gradedState s k).returnScene (gradedState s k).title
             (gradedState s k).points_earned (gradedState s k).max_points)) := by
        rw [quizFrames_cons, quizFrames_nil]
        simp only [runChallenge, answerFrame, confirmFrame, hA, hB]
      have hzk : zscore (s.questions.drop s.qi) [k] =
          (if (k : Int) = (s.questions.getD s.qi default).correct_index
            then (s.questions.getD s.qi default).points else 0) := by
        rw [hzc, zscore_nil, add_zero]
      refine ⟨finishState (gradedState s k), ?_, ?_, ?_, ?_, ?_, ?_⟩
      · rw [hrun, gradedState_returnScene, gradedState_title, gradedState_max_points,
          gradedState_points, hzk]
      · show (gradedState s k).points_earned = _
        rw [gradedState_points, hzk]
      · show (gradedState s k).max_points = _
        rw [gradedState_max_points]
      · show lookupD (gradedState s k).scores "total" = _
        rw [gradedState_scores_total s k hcat, hzk]
      · show lookupD (gradedState s k).scores s.category = _
        rw [gradedState_scores_cat s k hcat, hzk]
      · show markCompleted (gradedState s k).completed (gradedState s k).set_id = _
        rw [gradedState_completed, gradedState_set_id]
    · -- more questions follow
      have hlt : (gradedState s k).qi + 1 < (gradedState s k).questions.length := by
        rw [gradedState_questions, gradedState_qi]
        simp only [List.length_cons] at hlen
        omega
      have hB := challenge_feedback_next (gradedState s k) hq1
        (gradedState_showing_feedback s k) hlt
      have hrun1 : runChallenge s (quizFrames (k :: k2 :: rest2)) =
          runChallenge (advanceState (gradedState s k)) (quizFrames (k2 :: rest2)) := by
        rw [quizFrames_cons]
        simp only [runChallenge, answerFrame, confirmFrame, hA, hB]
      obtain ⟨sf, hrunf, hp, hm, hst, hsc, hco⟩ := ih (advanceState (gradedState s k))
        rfl rfl
        (by show (gradedState s k).category ≠ "total"
            rw [gradedState_category]; exact hcat)
        (by simp)
        (by show (gradedState s k).qi + 1 + _ = (gradedState s k).questions.length
            rw [gradedState_questions, gradedState_qi]
            simp only [List.length_cons] at hlen ⊢
            omega)
        (by intro j hj
            show (k2 :: rest2).get ⟨j, hj⟩ <
              ((gradedState s k).questions.getD ((gradedState s k).qi + 1 + j)
                default).choices.length
            rw [gradedState_questions, gradedState_qi]
            have harith : s.qi + 1 + j = s.qi + (j + 1) := by omega
            rw [harith]
            have hj2 : j + 1 < (k :: k2 :: rest2).length := by
              simp only [List.length_cons] at hj ⊢
              omega
            have := hin (j + 1) hj2
            simpa using this)
      have hq2 : (advanceState (gradedState s k)).questions.drop
          (advanceState (gradedState s k)).qi = s.questions.drop (s.qi + 1) := by
        show (gradedState s k).questions.drop ((gradedState s k).qi + 1) = _
        rw [gradedState_questions, gradedState_qi]
      have hpts : (advanceState (gradedState s k)).points_earned +
            zscore (s.questions.drop (s.qi + 1)) (k2 :: rest2) =
          s.points_earned + zscore (s.questions.drop s.qi) (k :: k2 :: rest2) := by
        show (gradedState s k).points_earned + _ = _
        rw [gradedState_points, hzc]
        omega
      refine ⟨sf, ?_, ?_, ?_, ?_, ?_, ?_⟩
      · rw [hrun1, hrunf, hq2, hpts,
          show (advanceState (gradedState s k)).returnScene =
            (gradedState s k).returnScene from rfl, gradedState_returnScene,
          show (advanceState (gradedState s k)).title = (gradedState s k).title from rfl,
          gradedState_title,
          show (advanceState (gradedState s k)).max_points =
            (gradedState s k).max_points from rfl, gradedState_max_points]
      · rw [hp, hq2]
        show (gradedState s k).points_earned + _ = _
        rw [gradedState_points, hzc]
        omega
      · rw [hm]
        show (gradedState s k).max_points = _
        rw [gradedState_max_points]
      · rw [hst, hq2]
        show lookupD (gradedState s k).scores "total" + _ = _
        rw [gradedState_scores_total s k hcat, hzc]
        omega
      · have hsc2 := hsc
        rw [show (advanceState (gradedState s k)).category =
              (gradedState s k).category from rfl, gradedState_category] at hsc2
        rw [hsc2, hq2]
        show lookupD (gradedState s k).scores s.category + _ = _
        rw [gradedState_scores_cat s k hcat, hzc]
        omega
      · rw [hco]
        show markCompleted (gradedState s k).completed (gradedState s k).set_id = _
        rw [gradedState_completed, gradedState_set_id]


/-- **C2** (status: confirmed).  For every quiz set with a non-empty
question list, after the last feedback confirm the Results transition
carries points equal to the sum of `points` over exactly the questions whose
confirm-time selection equals `correct_index`, and max points equal to the
sum of all questions' `points`, computed once at construction and
independent of the selections; each correct answer also adds its points to
`scores["total"]` and to the set's category bucket (assumed distinct from
`"total"`; with bucket `"total"` the code would double-add). -/
theorem quiz_scoring {α : Type} (ret : α) (set_id title category : String)
    (qs : List Question) (scores0 : List (String × Int)) (comp0 : List String)
    (sels : List Nat)
    (hne : qs ≠ [])
    (hlen : sels.length = qs.length)
    (hin : ∀ j, (hj : j < sels.length) → sels.get ⟨j, hj⟩ <
      (qs.getD j default).choices.length)
    (hcat : category ≠ "total") :
    ∃ sf : ChallengeState α,
      runChallenge (mkChallengeState ret set_id title category qs scores0 comp0)
          (quizFrames sels) =
        (sf, some (.results ret title (zscore qs sels) (sumPoints qs))) ∧
      sf.points_earned = zscore qs sels ∧
      sf.max_points = sumPoints qs ∧
      lookupD sf.scores "total" = lookupD scores0 "total" + zscore qs sels ∧
      lookupD sf.scores category = lookupD scores0 category + zscore qs sels ∧
      sf.completed = markCompleted comp0 set_id := by
  have hne2 : sels ≠ [] := by
    intro he
    rw [he] at hlen
    simp only [List.length_nil] at hlen
    exact hne (List.length_eq_zero.mp hlen.symm)
  obtain ⟨sf, hrun, hp, hm, hst, hsc, hco⟩ := quiz_run_loop sels
    (mkChallengeState ret set_id title category qs scores0 comp0) rfl rfl hcat hne2
    (by show 0 + sels.length = qs.length; omega)
    (by intro j hj
        have := hin j hj
        show sels.get ⟨j, hj⟩ < (qs.getD (0 + j) default).choices.length
        simpa using this)
  simp only [mkChallengeState, List.drop_zero, zero_add] at hrun hp hm hst hsc hco
  exact ⟨sf, hrun, hp, hm, hst, hsc, hco⟩

/-- The two questions of the C2 witness quiz. -/
def c2Questions : List Question :=
  [{ prompt := "q1", choices := ["a", "b"], correct_index := 1, points := 100,
     explanation := "e1" },
   { prompt := "q2", choices := ["a", "b", "c"], correct_index := 2, points := 50,
     explanation := "e2" }]

/-- Witness for C2: answering the first question correctly (index 1) and the
second incorrectly (index 0) yields 100 of 150 points, credited to the
`total` and `phishing` buckets, with the set recorded as completed. -/
theorem quiz_scoring_witness :
    ∃ sf : ChallengeState Nat,
      runChallenge (mkChallengeState 0 "set1" "T" "phishing" c2Questions
          [("total", 10)] []) (quizFrames [1, 0]) =
        (sf, some (.results 0 "T" (zscore c2Questions [1, 0])
          (sumPoints c2Questions))) ∧
      sf.points_earned = zscore c2Questions [1, 0] ∧
      sf.max_points = sumPoints c2Questions ∧
      lookupD sf.scores "total" =
        lookupD [("total", 10)] "total" + zscore c2Questions [1, 0] ∧
      lookupD sf.scores "phishing" =
        lookupD [("total", 10)] "phishing" + zscore c2Questions [1, 0] ∧
      sf.completed = markCompleted [] "set1" :=
  quiz_scoring 0 "set1" "T" "phishing" c2Questions [("total", 10)] [] [1, 0]
    (by decide) (by decide) (by decide) (by decide)

end CyberSecGame
